import Mathlib

/-!
# Frame table, clock eviction and frame allocation (`src/vm/frame.c`)

A shallow embedding of `src/vm/frame.c` and `src/vm/page.h`.

* Pointers to supplemental page table entries are natural numbers indexing a heap
  `State.sptes`; a `struct spte *` stored in a frame is `Option Nat` (`none` is `NULL`).
* Physical addresses are natural numbers, `0` is `NULL`; `uint32_t` arithmetic is reduced
  modulo `2 ^ 32` where the source computes in `uint32_t`.
* A `struct lock` is the identifier of its holder, `none` when free.  The functions run on
  behalf of one thread `cur`; a lock held by a different thread stays held.
* `while (true)` is a fuelled recursion: `Fault.out_of_fuel` means the loop was still
  running when the fuel ran out.
* Every lock operation and every call of a collaborator is recorded in `State.trace`,
  most recent event first.
-/

namespace Vm

/-- The modulus of `uint32_t` arithmetic. -/
abbrev UINT32 : Nat := 4294967296

/-- Possible locations of pages (`page_loc`, `page.h`). -/
inductive page_loc where
  | LOC_MEMORY
  | LOC_SWAPPED
  | LOC_DISK
deriving DecidableEq, Repr

/-- Modelled from the spec: `struct thread` (threads/thread.h is not part of the sources);
only the page directory that `evict_frame` reads through `owner_thread->pagedir`. -/
structure thread where
  pagedir : Nat
deriving DecidableEq, Repr

/-- Supplementary page table entry (`struct spte`).  `page.h` declares `addr` and `loc`;
`frame.c` also uses `is_pinned`, `is_loaded` and `owner_thread`, which the spec lists as
the pin flag, the resident flag and the back-reference to the owning thread. -/
structure spte where
  addr : Nat
  loc : page_loc
  is_pinned : Bool
  is_loaded : Bool
  owner_thread : thread
deriving DecidableEq, Repr

/-- Modelled from the spec: `struct frame` (vm/frame.h is not part of the sources): a
physical address, a lock and a back-reference to the owning entry.  `frame.c` names the
owner `spte` in `init_frame_table` and `evict_frame` and `resident_page` in
`frame_handler_palloc`, and the address `physical_mem_frame_base` in `init_frame_table`
and `physical_memory_addr` elsewhere; each pair is one field here. -/
structure frame where
  resident_page : Option Nat
  physical_memory_addr : Nat
  frame_lock : Option Nat
deriving DecidableEq, Repr

/-- Lock operations and collaborator calls, as recorded in the trace. -/
inductive Event where
  | acquire_evict_lock
  | release_evict_lock
  | try_acquire_frame (index : Nat) (acquired : Bool)
  | acquire_frame (index : Nat)
  | release_frame (index : Nat)
  | advance
  | is_accessed (pagedir addr : Nat)
  | set_accessed (pagedir addr : Nat) (value : Bool)
  | evict_page (entry addr : Nat)
  | load_page (entry addr : Nat)
  | zero_page (addr : Nat)
  | palloc_get (zeros : Bool) (result : Nat)
  | palloc_free (addr : Nat)
deriving DecidableEq, Repr

/-- How a run can fail to return. -/
inductive Fault where
  | assertion
  | null_deref
  | out_of_bounds
  | blocked
  | out_of_fuel
deriving DecidableEq, Repr

/-- The globals of `frame.c`, the heap of entries, the hardware accessed bits
(per page directory and address), the free pages of the user pool, and the trace. -/
structure State where
  frame_table : List frame
  total_frames : Nat
  first_frame : Nat
  frame_evict_lock : Option Nat
  clock_hand : Nat
  sptes : Nat → spte
  accessed : Nat → Nat → Bool
  pool : List Nat
  trace : List Event

/-- The collaborators of `frame.c` that act on entries: the page evictor and the page
loader.  Both receive the heap of entries, the entry and a physical address. -/
structure Collab where
  evict_page_from_physical_memory : (Nat → spte) → Nat → Nat → (Nat → spte)
  load_page_into_physical_memory : (Nat → spte) → Nat → Nat → Bool × (Nat → spte)

/-- Append an event to the trace. -/
def State.log (s : State) (e : Event) : State :=
  { s with trace := e :: s.trace }

/-- Store a new holder in the lock of frame `i`. -/
def State.set_frame_lock (s : State) (i : Nat) (l : Option Nat) : State :=
  { s with frame_table := s.frame_table.modify (fun fr => { fr with frame_lock := l }) i }

/-- Store a new owner in frame `i`. -/
def State.set_resident_page (s : State) (i : Nat) (e : Option Nat) : State :=
  { s with frame_table := s.frame_table.modify (fun fr => { fr with resident_page := e }) i }

/-- Modelled from the spec: `lock_try_acquire` (threads/synch.c is not part of the
sources): takes a free lock, fails on a lock held by another thread, and asserts that the
caller does not hold the lock already. -/
def lock_try_acquire (l : Option Nat) (cur : Nat) : Except Fault (Bool × Option Nat) :=
  match l with
  | none => .ok (true, some cur)
  | some h => if h = cur then .error .assertion else .ok (false, some h)

/-- Modelled from the spec: `lock_acquire` (threads/synch.c is not part of the sources;
`frame.c` also spells it `lock_aquire`): takes a free lock, asserts that the caller does
not hold it, and waits on a lock held by another thread, which in a run of one thread
never ends. -/
def lock_acquire (l : Option Nat) (cur : Nat) : Except Fault (Option Nat) :=
  match l with
  | none => .ok (some cur)
  | some h => if h = cur then .error .assertion else .error .blocked

/-- Modelled from the spec: `lock_release` (threads/synch.c is not part of the sources):
asserts that the caller holds the lock and frees it. -/
def lock_release (l : Option Nat) (cur : Nat) : Except Fault (Option Nat) :=
  if l = some cur then .ok none else .error .assertion

/-- Modelled from the spec: `lock_held_by_current_thread` (threads/synch.c). -/
def lock_held_by_current_thread (l : Option Nat) (cur : Nat) : Bool :=
  l == some cur

/-- Modelled from the spec: `pagedir_is_accessed` (userprog/pagedir.c): the accessed bit
of an address in a page directory. -/
def pagedir_is_accessed (s : State) (pagedir addr : Nat) : Bool :=
  s.accessed pagedir addr

/-- Modelled from the spec: `pagedir_set_accessed` (userprog/pagedir.c): sets the accessed
bit of an address in a page directory. -/
def pagedir_set_accessed (s : State) (pagedir addr : Nat) (b : Bool) : State :=
  { s with
    accessed := fun pd a => if pd = pagedir ∧ a = addr then b else s.accessed pd a,
    trace := .set_accessed pagedir addr b :: s.trace }

/-- Modelled from the spec: `palloc_get_page` (threads/palloc.c), the pool's
`try_allocate(zero) -> address|none`: hands out a free page, `NULL` when none is left. -/
def palloc_get_page (s : State) (zeros : Bool) : Nat × State :=
  match s.pool with
  | [] => (0, s.log (.palloc_get zeros 0))
  | a :: rest => (a, { s with pool := rest, trace := .palloc_get zeros a :: s.trace })

/-- Modelled from the spec: `palloc_free_page` (threads/palloc.c), the pool's
`free(address)`: returns a page to the free pages; freeing `NULL` does nothing. -/
def palloc_free_page (s : State) (addr : Nat) : State :=
  if addr = 0 then s.log (.palloc_free addr)
  else { s with pool := addr :: s.pool, trace := .palloc_free addr :: s.trace }

/-- The globals before `init_frame_table` has run (`clock_hand = 0`). -/
def boot (sptes : Nat → spte) (accessed : Nat → Nat → Bool) (pool : List Nat) : State :=
  { frame_table := [], total_frames := 0, first_frame := 0, frame_evict_lock := none,
    clock_hand := 0, sptes := sptes, accessed := accessed, pool := pool, trace := [] }

/-- The function `init_frame_table(num_frames, frame_base)`.  `malloc_ok` tells whether
`malloc` returned storage; when it did not, the table stays empty. -/
def init_frame_table (s : State) (num_frames frame_base : Nat) (malloc_ok : Bool) : State :=
  let s1 := { s with total_frames := num_frames, first_frame := frame_base,
                     frame_evict_lock := none }
  if malloc_ok then
    { s1 with frame_table := (List.range num_frames).map fun i =>
        { resident_page := none,
          physical_memory_addr := (frame_base % UINT32 + (i <<< 12) % UINT32) % UINT32,
          frame_lock := none } }
  else
    { s1 with frame_table := [] }

/-- The function `advance_clock_hand()`. -/
def advance_clock_hand (cur : Nat) (s : State) : Except Fault State :=
  if lock_held_by_current_thread s.frame_evict_lock cur then
    let h := (s.clock_hand + 1) % UINT32
    .ok { s with clock_hand := if h ≥ s.total_frames then 0 else h,
                 trace := .advance :: s.trace }
  else .error .assertion

/-- What one pass through the body of the loop of `evict_frame` ends in: the loop goes
round again, or it breaks with the frame at `index`. -/
inductive Iter where
  | again (s : State)
  | found (index : Nat) (s : State)

/-- One pass through the body of `while (true)` in `evict_frame`. -/
def evict_frame_iter (cur : Nat) (s : State) : Except Fault Iter :=
  match s.frame_table[s.clock_hand]? with
  | none => .error .out_of_bounds
  | some fr =>
    match lock_try_acquire fr.frame_lock cur with
    | .error f => .error f
    | .ok (false, _) =>
      match advance_clock_hand cur (s.log (.try_acquire_frame s.clock_hand false)) with
      | .error f => .error f
      | .ok s' => .ok (.again s')
    | .ok (true, l) =>
      let s1 := (s.set_frame_lock s.clock_hand l).log (.try_acquire_frame s.clock_hand true)
      match lock_release s1.frame_evict_lock cur with
      | .error f => .error f
      | .ok g =>
        let s2 := { s1 with frame_evict_lock := g, trace := .release_evict_lock :: s1.trace }
        match fr.resident_page with
        | none => .error .null_deref
        | some e =>
          let pagedir := (s2.sptes e).owner_thread.pagedir
          let accessed := pagedir_is_accessed s2 pagedir fr.physical_memory_addr
          let s3 := s2.log (.is_accessed pagedir fr.physical_memory_addr)
          let pinned := (s3.sptes e).is_pinned
          if accessed || pinned then
            let s4 := pagedir_set_accessed s3 pagedir fr.physical_memory_addr false
            match lock_release l cur with
            | .error f => .error f
            | .ok l' =>
              let s5 := (s4.set_frame_lock s.clock_hand l').log (.release_frame s.clock_hand)
              match lock_acquire s5.frame_evict_lock cur with
              | .error f => .error f
              | .ok g' =>
                let s6 := { s5 with frame_evict_lock := g',
                                    trace := .acquire_evict_lock :: s5.trace }
                match advance_clock_hand cur s6 with
                | .error f => .error f
                | .ok s' => .ok (.again s')
          else
            .ok (.found s.clock_hand s3)

/-- The loop `while (true)` of `evict_frame`, run for at most `fuel` passes; it returns
the index of the frame it broke with and the state at the `break`. -/
def evict_frame_loop (cur : Nat) : Nat → State → Except Fault (Nat × State)
  | 0, _ => .error .out_of_fuel
  | fuel + 1, s =>
    match evict_frame_iter cur s with
    | .error f => .error f
    | .ok (.found i s') => .ok (i, s')
    | .ok (.again s') => evict_frame_loop cur fuel s'

/-- The call `evict_page_from_physical_memory(frame->spte, frame->physical_memory_addr)`
that follows the loop of `evict_frame`. -/
def evict_frame_writeback (C : Collab) (i : Nat) (s : State) : Except Fault State :=
  match s.frame_table[i]? with
  | none => .error .out_of_bounds
  | some fr =>
    match fr.resident_page with
    | none => .error .null_deref
    | some e =>
      .ok { s with
            sptes := C.evict_page_from_physical_memory s.sptes e fr.physical_memory_addr,
            trace := .evict_page e fr.physical_memory_addr :: s.trace }

/-- The function `evict_frame()`; the returned frame is given by its index. -/
def evict_frame (C : Collab) (cur fuel : Nat) (s : State) : Except Fault (Nat × State) :=
  if lock_held_by_current_thread s.frame_evict_lock cur then
    match evict_frame_loop cur fuel s with
    | .error f => .error f
    | .ok (i, s1) =>
      match evict_frame_writeback C i s1 with
      | .error f => .error f
      | .ok s2 => .ok (i, s2)
  else .error .assertion

/-- The function `get_frame_index`; its body reads the parameter under the name `kaddr`. -/
def get_frame_index (s : State) (kaddr : Nat) : Except Fault Nat :=
  if s.first_frame = 0 then .error .assertion
  else if ¬ (s.first_frame % UINT32 ≤ kaddr % UINT32) then .error .assertion
  else
    let index := ((kaddr % UINT32 - s.first_frame % UINT32) % UINT32) >>> 12
    if index < s.total_frames then .ok index else .error .assertion

/-- The first half of `frame_handler_palloc`, up to the end of the `if`/`else` that picks
the frame: the index of the frame, the value of the local `physical_memory_addr`, and the
state. -/
def frame_handler_palloc_obtain (C : Collab) (cur fuel : Nat) (zeros : Bool) (s : State) :
    Except Fault (Nat × Nat × State) :=
  match lock_acquire s.frame_evict_lock cur with
  | .error f => .error f
  | .ok g =>
    let s1 := { s with frame_evict_lock := g, trace := .acquire_evict_lock :: s.trace }
    let (physical_memory_addr, s2) := palloc_get_page s1 zeros
    if physical_memory_addr ≠ 0 then
      match get_frame_index s2 physical_memory_addr with
      | .error f => .error f
      | .ok i =>
        match s2.frame_table[i]? with
        | none => .error .out_of_bounds
        | some fr =>
          match lock_acquire fr.frame_lock cur with
          | .error f => .error f
          | .ok l =>
            let s3 := (s2.set_frame_lock i l).log (.acquire_frame i)
            match lock_release s3.frame_evict_lock cur with
            | .error f => .error f
            | .ok g' =>
              let s4 := { s3 with frame_evict_lock := g',
                                  trace := .release_evict_lock :: s3.trace }
              if fr.resident_page = none then .ok (i, physical_memory_addr, s4)
              else .error .assertion
    else
      match evict_frame C cur fuel s2 with
      | .error f => .error f
      | .ok (i, s3) => .ok (i, physical_memory_addr, s3)

/-- The second half of `frame_handler_palloc`, from `if (zeros) memset (...)` to the
`return`, for the frame at index `i` and the local `physical_memory_addr`. -/
def frame_handler_palloc_finish (C : Collab) (cur : Nat) (zeros : Bool) (target : Nat)
    (should_pin : Bool) (i physical_memory_addr : Nat) (s : State) :
    Except Fault (Bool × State) :=
  match s.frame_table[i]? with
  | none => .error .out_of_bounds
  | some fr =>
    let s1 := if zeros then s.log (.zero_page fr.physical_memory_addr) else s
    let r := C.load_page_into_physical_memory s1.sptes target physical_memory_addr
    let s2 := { s1 with sptes := r.2,
                        trace := .load_page target physical_memory_addr :: s1.trace }
    let s3 :=
      if ¬ r.1 then palloc_free_page s2 physical_memory_addr
      else
        let s2' := s2.set_resident_page i (some target)
        { s2' with sptes := fun p =>
            if p = target then { (s2'.sptes target) with is_loaded := true } else s2'.sptes p }
    if should_pin = false then
      match lock_release fr.frame_lock cur with
      | .error f => .error f
      | .ok l => .ok (r.1, (s3.set_frame_lock i l).log (.release_frame i))
    else .ok (r.1, s3)

/-- The function `frame_handler_palloc(zeros, spte, should_pin)`. -/
def frame_handler_palloc (C : Collab) (cur fuel : Nat) (zeros : Bool) (target : Nat)
    (should_pin : Bool) (s : State) : Except Fault (Bool × State) :=
  match frame_handler_palloc_obtain C cur fuel zeros s with
  | .error f => .error f
  | .ok (i, physical_memory_addr, s1) =>
    frame_handler_palloc_finish C cur zeros target should_pin i physical_memory_addr s1

/-- The function `frame_handler_palloc_free(physical_memory_address, spte)`: its body ends
after `lock_acquire (&frame->frame_lock)`. -/
def frame_handler_palloc_free (cur : Nat) (physical_memory_address : Nat) (_entry : Nat)
    (s : State) : Except Fault State :=
  match get_frame_index s physical_memory_address with
  | .error f => .error f
  | .ok i =>
    match s.frame_table[i]? with
    | none => .error .out_of_bounds
    | some fr =>
      match lock_acquire fr.frame_lock cur with
      | .error f => .error f
      | .ok l => .ok ((s.set_frame_lock i l).log (.acquire_frame i))

/-! ## The passes of the loop of `evict_frame` in closed form, and the predicates of the claims -/

/-- The clock hand after `advance_clock_hand`. -/
def next_hand (s : State) : Nat :=
  if (s.clock_hand + 1) % UINT32 ≥ s.total_frames then 0 else (s.clock_hand + 1) % UINT32

/-- The state after a pass that found the lock of the frame at the hand taken. -/
def passed (s : State) : State :=
  { s with clock_hand := next_hand s,
           trace := .advance :: .try_acquire_frame s.clock_hand false :: s.trace }

/-- The state after a pass that inspected the frame `fr` at the hand, owned by `e`, and
skipped it: its accessed bit is cleared and the hand has moved on. -/
def skipped (s : State) (fr : frame) (e : Nat) : State :=
  { s with
    clock_hand := next_hand s,
    accessed := fun pd a =>
      if pd = (s.sptes e).owner_thread.pagedir ∧ a = fr.physical_memory_addr then false
      else s.accessed pd a,
    trace := .advance :: .acquire_evict_lock :: .release_frame s.clock_hand ::
      .set_accessed (s.sptes e).owner_thread.pagedir fr.physical_memory_addr false ::
      .is_accessed (s.sptes e).owner_thread.pagedir fr.physical_memory_addr ::
      .release_evict_lock :: .try_acquire_frame s.clock_hand true :: s.trace }

/-- The state at the `break`: the frame `fr` at the hand, owned by `e`, is the victim; its
lock is held and the eviction lock is released. -/
def chosen (cur : Nat) (s : State) (fr : frame) (e : Nat) : State :=
  { s with
    frame_table :=
      s.frame_table.modify (fun fr => { fr with frame_lock := some cur }) s.clock_hand,
    frame_evict_lock := none,
    trace := .is_accessed (s.sptes e).owner_thread.pagedir fr.physical_memory_addr ::
      .release_evict_lock :: .try_acquire_frame s.clock_hand true :: s.trace }

/-- The body of the loop of `evict_frame` by cases on the frame at the hand; proved equal
to `evict_frame_iter` in `evict_frame_iter_eq`. -/
def evict_frame_iter_cases (cur : Nat) (s : State) : Except Fault Iter :=
  match s.frame_table[s.clock_hand]? with
  | none => .error .out_of_bounds
  | some fr =>
    match fr.frame_lock with
    | some h =>
      if h = cur then .error .assertion
      else if s.frame_evict_lock = some cur then .ok (.again (passed s))
      else .error .assertion
    | none =>
      if s.frame_evict_lock = some cur then
        match fr.resident_page with
        | none => .error .null_deref
        | some e =>
          if s.accessed (s.sptes e).owner_thread.pagedir fr.physical_memory_addr
              || (s.sptes e).is_pinned then .ok (.again (skipped s fr e))
          else .ok (.found s.clock_hand (chosen cur s fr e))
      else .error .assertion

/-- The state in which `evict_frame` returns after breaking in `chosen cur p fr e`: the
evictor has run on the owner and the address of the victim. -/
def evicted (C : Collab) (cur : Nat) (p : State) (fr : frame) (e : Nat) : State :=
  { chosen cur p fr e with
    sptes := C.evict_page_from_physical_memory p.sptes e fr.physical_memory_addr,
    trace := .evict_page e fr.physical_memory_addr :: (chosen cur p fr e).trace }

/-- Whether the frame at the hand would be taken as the victim: its lock is free, it is
owned, and its owner is neither accessed nor pinned. -/
def victim_now (s : State) : Bool :=
  match s.frame_table[s.clock_hand]? with
  | none => false
  | some fr =>
    match fr.frame_lock, fr.resident_page with
    | none, some e =>
      !(s.accessed (s.sptes e).owner_thread.pagedir fr.physical_memory_addr
        || (s.sptes e).is_pinned)
    | _, _ => false

/-- The state after one pass that does not break: `passed` when the lock of the frame at
the hand is taken, `skipped` when the frame is inspected. -/
def skip (s : State) : State :=
  match s.frame_table[s.clock_hand]? with
  | none => s
  | some fr =>
    match fr.frame_lock, fr.resident_page with
    | some _, _ => passed s
    | none, some e => skipped s fr e
    | none, none => s

/-- The state at the `break` when the frame at the hand is the victim. -/
def victim_state (cur : Nat) (s : State) : State :=
  match s.frame_table[s.clock_hand]? with
  | none => s
  | some fr =>
    match fr.resident_page with
    | some e => chosen cur s fr e
    | none => s

/-- The state in which `evict_frame` returns when it breaks in `victim_state cur s`. -/
def evicted_state (C : Collab) (cur : Nat) (s : State) : State :=
  match s.frame_table[s.clock_hand]? with
  | none => s
  | some fr =>
    match fr.resident_page with
    | some e => evicted C cur s fr e
    | none => s

/-- The states in which the loop of `evict_frame` runs without a fault: the table has
`total_frames` descriptors, `total_frames` fits `size_t`, the hand is in range, thread
`cur` holds the eviction lock and no frame lock, and every unlocked frame is owned. -/
structure Ready (cur : Nat) (s : State) : Prop where
  len : s.frame_table.length = s.total_frames
  size : s.total_frames < UINT32
  hand : s.clock_hand < s.total_frames
  held : s.frame_evict_lock = some cur
  locks : ∀ fr ∈ s.frame_table, fr.frame_lock ≠ some cur
  owned : ∀ fr ∈ s.frame_table, fr.frame_lock = none → fr.resident_page ≠ none

/-- Whether an event is the inspection of a frame: a `lock_try_acquire` that succeeded. -/
def is_inspection : Event → Bool
  | .try_acquire_frame _ true => true
  | _ => false

/-- The number of frames inspected in a trace. -/
def inspections (t : List Event) : Nat :=
  t.countP is_inspection

/-- No two descriptors of the table have the same physical address. -/
def distinct_addrs (s : State) : Prop :=
  ∀ (i j : Nat) (fr fr' : frame), s.frame_table[i]? = some fr → s.frame_table[j]? = some fr' →
    fr.physical_memory_addr = fr'.physical_memory_addr → i = j

/-- The hypotheses of C3 on a state: frame `K` has a pinned owner and every other frame an
unpinned owner whose page is accessed. -/
structure OnePinned (s : State) (K : Nat) : Prop where
  pinned : ∃ fr e, s.frame_table[K]? = some fr ∧ fr.resident_page = some e ∧
    (s.sptes e).is_pinned = true
  others : ∀ (x : Nat) (fr : frame) (e : Nat), x ≠ K → s.frame_table[x]? = some fr →
    fr.resident_page = some e → (s.sptes e).is_pinned = false ∧
      s.accessed (s.sptes e).owner_thread.pagedir fr.physical_memory_addr = true

/-- Whether an event is a call of the page evictor. -/
def is_evict : Event → Bool
  | .evict_page _ _ => true
  | _ => false

/-- The state in which `frame_handler_palloc` calls `evict_frame` when it started in `s`
with an empty pool: the eviction lock is taken and `palloc_get_page` has returned `NULL`. -/
def exhausted (cur : Nat) (zeros : Bool) (s : State) : State :=
  { s with frame_evict_lock := some cur,
           trace := .palloc_get zeros 0 :: .acquire_evict_lock :: s.trace }

/-- The states between direct allocations from a table laid out at `base`: no lock is
held, frame `i` is at `base + i * 4096`, the free pages of the pool are distinct and each
is the page of an unowned frame, and the evictor has not been called. -/
structure Direct (N base : Nat) (s : State) : Prop where
  len : s.frame_table.length = N
  total : s.total_frames = N
  first : s.first_frame = base
  base_ne : base ≠ 0
  fit : base + N * 4096 ≤ UINT32
  lock : s.frame_evict_lock = none
  frames : ∀ (i : Nat) (fr : frame), s.frame_table[i]? = some fr →
    fr.physical_memory_addr = base + i * 4096 ∧ fr.frame_lock = none
  pool_nodup : s.pool.Nodup
  pool_free : ∀ a ∈ s.pool, ∃ (i : Nat) (fr : frame), a = base + i * 4096 ∧
    s.frame_table[i]? = some fr ∧ fr.resident_page = none
  no_evict : ∀ e a, Event.evict_page e a ∉ s.trace

/-- The state at the end of the direct path of the first half of `frame_handler_palloc`:
page `a` of frame `i` is taken from the pool and the lock of frame `i` is held. -/
def claimed (cur : Nat) (zeros : Bool) (s : State) (i a : Nat) (rest : List Nat) : State :=
  { s with
    frame_table := s.frame_table.modify (fun fr => { fr with frame_lock := some cur }) i,
    frame_evict_lock := none,
    pool := rest,
    trace := .release_evict_lock :: .acquire_frame i :: .palloc_get zeros a ::
      .acquire_evict_lock :: s.trace }

/-- Frame `i` of the state has no owner. -/
def unowned (s : State) (i : Nat) : Prop :=
  ∃ fr, s.frame_table[i]? = some fr ∧ fr.resident_page = none

/-- The owner of frame `i`, `none` when the frame has none or `i` is out of range. -/
def owner_of (s : State) (i : Nat) : Option Nat :=
  (s.frame_table[i]?).bind frame.resident_page

/-- Consecutive calls `frame_handler_palloc (zeros, e, false)`, one for each entry `e` of
the list, with the results of the calls. -/
def frame_handler_palloc_each (C : Collab) (cur fuel : Nat) (zeros : Bool) :
    List Nat → State → Except Fault (List Bool × State)
  | [], s => .ok ([], s)
  | e :: es, s =>
    match frame_handler_palloc C cur fuel zeros e false s with
    | .error f => .error f
    | .ok (b, s1) =>
      match frame_handler_palloc_each C cur fuel zeros es s1 with
      | .error f => .error f
      | .ok (bs, s2) => .ok (b :: bs, s2)

/-- The state after `k` passes of the loop of `evict_frame` that all went round again;
`none` when one of them broke or faulted. -/
def evict_frame_passes (cur : Nat) : Nat → State → Option State
  | 0, s => some s
  | k + 1, s =>
    match evict_frame_iter cur s with
    | .ok (.again s') => evict_frame_passes cur k s'
    | _ => none

/-- The states reachable from `init_frame_table (N, base)`, whether `malloc` returned
storage or not: by calls of `advance_clock_hand`, `evict_frame` and
`frame_handler_palloc` that return, and by any other step that leaves `clock_hand` and
`total_frames` alone (the caller taking or releasing locks, writes to entries, accessed
bits and the pool). -/
inductive Reachable (C : Collab) (N base : Nat) : State → Prop where
  | init (sptes : Nat → spte) (accessed : Nat → Nat → Bool) (pool : List Nat)
      (malloc_ok : Bool) :
      Reachable C N base (init_frame_table (boot sptes accessed pool) N base malloc_ok)
  | other (s s' : State) : Reachable C N base s → s'.clock_hand = s.clock_hand →
      s'.total_frames = s.total_frames → Reachable C N base s'
  | advance (cur : Nat) (s s' : State) : Reachable C N base s →
      advance_clock_hand cur s = .ok s' → Reachable C N base s'
  | evict (cur fuel : Nat) (s s' : State) (i : Nat) : Reachable C N base s →
      evict_frame C cur fuel s = .ok (i, s') → Reachable C N base s'
  | palloc (cur fuel : Nat) (zeros : Bool) (target : Nat) (should_pin : Bool)
      (s s' : State) (b : Bool) : Reachable C N base s →
      frame_handler_palloc C cur fuel zeros target should_pin s = .ok (b, s') →
      Reachable C N base s'

/-- The clock hand is in range for a table of `N` frames. -/
def hand_in_range (N : Nat) (s : State) : Prop :=
  s.total_frames = N ∧ s.clock_hand < N

/-- The result of `palloc_get_page` in `frame_handler_palloc` started in `s`: the page and
the state, with the eviction lock taken. -/
def asked (cur : Nat) (zeros : Bool) (s : State) : Nat × State :=
  palloc_get_page
    { s with frame_evict_lock := some cur, trace := .acquire_evict_lock :: s.trace } zeros

/-- The state at the end of the direct path of the first half of `frame_handler_palloc`,
from the state `s2` after `palloc_get_page`: the lock of frame `i` is taken and the
eviction lock released. -/
def claimed_from (cur i : Nat) (s2 : State) : State :=
  { s2 with
    frame_table := s2.frame_table.modify (fun fr => { fr with frame_lock := some cur }) i,
    frame_evict_lock := none,
    trace := .release_evict_lock :: .acquire_frame i :: s2.trace }

/-- The events of the second half of `frame_handler_palloc`, most recent first. -/
def finish_events (zeros : Bool) (target : Nat) (should_pin : Bool) (i a frame_addr : Nat)
    (success : Bool) : List Event :=
  (if should_pin then [] else [.release_frame i]) ++
  (if success then [] else [.palloc_free a]) ++
  [.load_page target a] ++
  (if zeros then [.zero_page frame_addr] else [])

/-- The locks that the thread holds, as read off its trace: whether it holds the eviction
lock, and the frames whose locks it holds. -/
structure Held where
  evict : Bool
  frames : List Nat
deriving DecidableEq, Repr

/-- One event checked against the lock discipline, and the locks held after it: `none`
when the event takes a frame lock while a frame lock is held, takes the eviction lock
while a frame lock is held, or calls the accessed-bit query, the evictor or the loader
while the eviction lock is held. -/
def Held.step (h : Held) : Event → Option Held
  | .acquire_evict_lock => if h.frames = [] then some { h with evict := true } else none
  | .release_evict_lock => some { h with evict := false }
  | .try_acquire_frame i true => if h.frames = [] then some { h with frames := [i] } else none
  | .try_acquire_frame _ false => some h
  | .acquire_frame i => if h.frames = [] then some { h with frames := [i] } else none
  | .release_frame i => some { h with frames := h.frames.erase i }
  | .is_accessed _ _ => if h.evict then none else some h
  | .evict_page _ _ => if h.evict then none else some h
  | .load_page _ _ => if h.evict then none else some h
  | .advance => some h
  | .set_accessed _ _ _ => some h
  | .zero_page _ => some h
  | .palloc_get _ _ => some h
  | .palloc_free _ => some h

/-- The events of a trace (most recent first) checked in the order they happened, from
the locks `h0` held before the oldest one. -/
def Held.replay (h0 : Held) : List Event → Option Held
  | [] => some h0
  | e :: t => (Held.replay h0 t).bind fun h => h.step e

/-- The trace of `p` extends the trace of `s0` by passes of the loop that keep the lock
discipline and end with the eviction lock held and no frame lock held. -/
def scanning (s0 p : State) : Prop :=
  ∃ t, p.trace = t ++ s0.trace ∧ Held.replay ⟨true, []⟩ t = some ⟨true, []⟩

/-- What passes of the loop of `evict_frame` that went round again have done to the state
`s0` they started in, with `t` the events they logged: the table and the entries are as
they were; an accessed bit that differs is false and is the bit of a frame that was
skipped (its lock released); the bit of every skipped frame is false; and a skipped frame
was inspected. -/
structure ScanEffect (s0 p : State) (t : List Event) : Prop where
  trace : p.trace = t ++ s0.trace
  table : p.frame_table = s0.frame_table
  entries : p.sptes = s0.sptes
  changed : ∀ pd a, p.accessed pd a ≠ s0.accessed pd a → p.accessed pd a = false ∧
    ∃ (j : Nat) (fr : frame) (e : Nat), s0.frame_table[j]? = some fr ∧
      fr.resident_page = some e ∧ pd = (s0.sptes e).owner_thread.pagedir ∧
      a = fr.physical_memory_addr ∧ Event.release_frame j ∈ t
  cleared : ∀ (j : Nat) (fr : frame) (e : Nat), s0.frame_table[j]? = some fr →
    fr.resident_page = some e → Event.release_frame j ∈ t →
    p.accessed (s0.sptes e).owner_thread.pagedir fr.physical_memory_addr = false
  inspected : ∀ j, Event.release_frame j ∈ t → Event.try_acquire_frame j true ∈ t

/-! ## The calls of `advance_clock_hand` and `evict_frame` with the state in which they stop -/

/-- How a call stops: the state it has reached, and either the value it returns or the
fault that ended it. -/
structure Stopped (α : Type) where
  state : State
  result : Except Fault α

/-- The function `advance_clock_hand()`, with the state in which the call stops: a failed
`ASSERT` stops it before `clock_hand++`. -/
def advance_clock_hand_stopped (cur : Nat) (s : State) : Stopped Unit :=
  if lock_held_by_current_thread s.frame_evict_lock cur then
    let h := (s.clock_hand + 1) % UINT32
    ⟨{ s with clock_hand := if h ≥ s.total_frames then 0 else h,
              trace := .advance :: s.trace }, .ok ()⟩
  else ⟨s, .error .assertion⟩

/-- One pass through the body of `while (true)` in `evict_frame`, with the state in which
the pass stops; it ends in the index of the frame at the `break`, or in `none` when the
loop goes round again. -/
def evict_frame_iter_stopped (cur : Nat) (s : State) : Stopped (Option Nat) :=
  match s.frame_table[s.clock_hand]? with
  | none => ⟨s, .error .out_of_bounds⟩
  | some fr =>
    match lock_try_acquire fr.frame_lock cur with
    | .error f => ⟨s, .error f⟩
    | .ok (false, _) =>
      match advance_clock_hand_stopped cur (s.log (.try_acquire_frame s.clock_hand false)) with
      | ⟨s', .error f⟩ => ⟨s', .error f⟩
      | ⟨s', .ok _⟩ => ⟨s', .ok none⟩
    | .ok (true, l) =>
      let s1 := (s.set_frame_lock s.clock_hand l).log (.try_acquire_frame s.clock_hand true)
      match lock_release s1.frame_evict_lock cur with
      | .error f => ⟨s1, .error f⟩
      | .ok g =>
        let s2 := { s1 with frame_evict_lock := g, trace := .release_evict_lock :: s1.trace }
        match fr.resident_page with
        | none => ⟨s2, .error .null_deref⟩
        | some e =>
          let pagedir := (s2.sptes e).owner_thread.pagedir
          let accessed := pagedir_is_accessed s2 pagedir fr.physical_memory_addr
          let s3 := s2.log (.is_accessed pagedir fr.physical_memory_addr)
          let pinned := (s3.sptes e).is_pinned
          if accessed || pinned then
            let s4 := pagedir_set_accessed s3 pagedir fr.physical_memory_addr false
            match lock_release l cur with
            | .error f => ⟨s4, .error f⟩
            | .ok l' =>
              let s5 := (s4.set_frame_lock s.clock_hand l').log (.release_frame s.clock_hand)
              match lock_acquire s5.frame_evict_lock cur with
              | .error f => ⟨s5, .error f⟩
              | .ok g' =>
                let s6 := { s5 with frame_evict_lock := g',
                                    trace := .acquire_evict_lock :: s5.trace }
                match advance_clock_hand_stopped cur s6 with
                | ⟨s', .error f⟩ => ⟨s', .error f⟩
                | ⟨s', .ok _⟩ => ⟨s', .ok none⟩
          else
            ⟨s3, .ok (some s.clock_hand)⟩

/-- The loop `while (true)` of `evict_frame`, run for at most `fuel` passes, with the state
in which it stops. -/
def evict_frame_loop_stopped (cur : Nat) : Nat → State → Stopped Nat
  | 0, s => ⟨s, .error .out_of_fuel⟩
  | fuel + 1, s =>
    match evict_frame_iter_stopped cur s with
    | ⟨s', .error f⟩ => ⟨s', .error f⟩
    | ⟨s', .ok (some i)⟩ => ⟨s', .ok i⟩
    | ⟨s', .ok none⟩ => evict_frame_loop_stopped cur fuel s'

/-- The function `evict_frame()`, with the state in which the call stops: a failed `ASSERT`
stops it before the loop is entered. -/
def evict_frame_stopped (C : Collab) (cur fuel : Nat) (s : State) : Stopped Nat :=
  if lock_held_by_current_thread s.frame_evict_lock cur then
    match evict_frame_loop_stopped cur fuel s with
    | ⟨s1, .error f⟩ => ⟨s1, .error f⟩
    | ⟨s1, .ok i⟩ =>
      match evict_frame_writeback C i s1 with
      | .error f => ⟨s1, .error f⟩
      | .ok s2 => ⟨s2, .ok i⟩
  else ⟨s, .error .assertion⟩

/-- The value and the state of a call that returned, the fault of one that did not. -/
def Stopped.returned {α : Type} (st : Stopped α) : Except Fault (α × State) :=
  match st.result with
  | .error f => .error f
  | .ok a => .ok (a, st.state)

/-! ## States and collaborators used in the examples -/

/-- An entry of thread 1 that is loaded in memory, with the given pin flag. -/
def entry_of (pinned : Bool) : spte :=
  { addr := 0, loc := .LOC_MEMORY, is_pinned := pinned, is_loaded := true,
    owner_thread := { pagedir := 1 } }

/-- An evictor that marks the entry it is handed as swapped out and not loaded. -/
def marking_evictor (h : Nat → spte) (e _addr : Nat) : Nat → spte :=
  fun p => if p = e then { (h e) with loc := .LOC_SWAPPED, is_loaded := false } else h p

/-- A loader that reports `ok` and leaves every entry as it is. -/
def plain_loader (ok : Bool) (h : Nat → spte) (_e _addr : Nat) : Bool × (Nat → spte) :=
  (ok, h)

/-- The collaborators used in the examples. -/
def plain_collab (ok : Bool) : Collab :=
  { evict_page_from_physical_memory := marking_evictor,
    load_page_into_physical_memory := plain_loader ok }

/-- Two frames at 4096 and 8192, owned by entries 10 (pinned) and 11 (not pinned), both
pages accessed, the pool empty, the eviction lock held by thread 7, the hand at 0. -/
def two_frames : State :=
  { frame_table := [⟨some 10, 4096, none⟩, ⟨some 11, 8192, none⟩],
    total_frames := 2, first_frame := 4096, frame_evict_lock := some 7, clock_hand := 0,
    sptes := fun p => entry_of (p == 10), accessed := fun _ _ => true, pool := [],
    trace := [] }

/-- The state in which `evict_frame` returns when run on `two_frames`. -/
def two_frames_evicted : State :=
  match evict_frame (plain_collab true) 7 5 two_frames with
  | .ok (_, s) => s
  | .error _ => two_frames

/-- Two frames at 4096 and 8192, owned by entries 10 and 11, neither pinned nor accessed,
the pool empty, the eviction lock held by thread 7, the hand at 1. -/
def quiet_frames : State :=
  { frame_table := [⟨some 10, 4096, none⟩, ⟨some 11, 8192, none⟩],
    total_frames := 2, first_frame := 4096, frame_evict_lock := some 7, clock_hand := 1,
    sptes := fun _ => entry_of false, accessed := fun _ _ => false, pool := [],
    trace := [] }

/-- Two frames owned by the pinned entry 10, the eviction lock held by thread 7. -/
def pinned_frames : State :=
  { frame_table := [⟨some 10, 4096, none⟩, ⟨some 10, 8192, none⟩],
    total_frames := 2, first_frame := 4096, frame_evict_lock := some 7, clock_hand := 0,
    sptes := fun _ => entry_of true, accessed := fun _ _ => false, pool := [],
    trace := [] }

/-- Three frames at 4096, 8192 and 12288 owned by entries 10, 11 and 12, of which 11 is
pinned; every page accessed, the eviction lock held by thread 7, the hand at 1. -/
def three_frames : State :=
  { frame_table := [⟨some 10, 4096, none⟩, ⟨some 11, 8192, none⟩, ⟨some 12, 12288, none⟩],
    total_frames := 3, first_frame := 4096, frame_evict_lock := some 7, clock_hand := 1,
    sptes := fun p => entry_of (p == 11), accessed := fun _ _ => true, pool := [],
    trace := [] }

/-- An entry of thread 1 whose page is on disk and not loaded. -/
def disk_entry : spte :=
  { addr := 0, loc := .LOC_DISK, is_pinned := false, is_loaded := false,
    owner_thread := { pagedir := 1 } }

/-- The state after `init_frame_table (2, 4096)`, with both pages free in the pool and
every entry on disk. -/
def fresh_table : State :=
  init_frame_table (boot (fun _ => disk_entry) (fun _ _ => false) [4096, 8192]) 2 4096 true

/-- The state in which the first half of `frame_handler_palloc` ends on `fresh_table`. -/
def fresh_obtained : State :=
  match frame_handler_palloc_obtain (plain_collab true) 7 1 false fresh_table with
  | .ok (_, _, s) => s
  | .error _ => fresh_table

/-- Two frames at 4096 and 8192, owned by entries 10 and 11, neither pinned nor accessed,
the pool empty and no lock held: the state before a call of `frame_handler_palloc` or
`frame_handler_palloc_free` under full occupancy. -/
def full_frames : State :=
  { frame_table := [⟨some 10, 4096, none⟩, ⟨some 11, 8192, none⟩],
    total_frames := 2, first_frame := 4096, frame_evict_lock := none, clock_hand := 0,
    sptes := fun _ => entry_of false, accessed := fun _ _ => false, pool := [],
    trace := [] }

/-- The state in which `frame_handler_palloc` returns on `fresh_table` for entry 20. -/
def fresh_allocated : State :=
  match frame_handler_palloc (plain_collab true) 7 1 false 20 false fresh_table with
  | .ok (_, s) => s
  | .error _ => fresh_table

/-- The state in which `frame_handler_palloc` returns on `full_frames` with a loader that
fails, `zeros` and `should_pin` set. -/
def full_failed : State :=
  match frame_handler_palloc (plain_collab false) 7 1 true 20 true full_frames with
  | .ok (_, s) => s
  | .error _ => full_frames

/-- A loader that succeeds for entry 20 only and leaves every entry as it is. -/
def picky_loader (h : Nat → spte) (e _addr : Nat) : Bool × (Nat → spte) :=
  (e == 20, h)

/-- The marking evictor with the loader that succeeds for entry 20 only. -/
def picky_collab : Collab :=
  { evict_page_from_physical_memory := marking_evictor,
    load_page_into_physical_memory := picky_loader }

/-- The state after `init_frame_table (1, 4096)`, with the one page free in the pool and
every entry on disk. -/
def single_frame : State :=
  init_frame_table (boot (fun _ => disk_entry) (fun _ _ => false) [4096]) 1 4096 true

/-- Two frames at 4096 and 8192, owned by entries 10 and 11, not pinned, both pages
accessed, the pool empty and no lock held. -/
def two_accessed : State :=
  { frame_table := [⟨some 10, 4096, none⟩, ⟨some 11, 8192, none⟩],
    total_frames := 2, first_frame := 4096, frame_evict_lock := none, clock_hand := 0,
    sptes := fun _ => entry_of false, accessed := fun _ _ => true, pool := [],
    trace := [] }

/-- The state in which `frame_handler_palloc` returns on `two_accessed` for entry 20. -/
def two_accessed_allocated : State :=
  match frame_handler_palloc (plain_collab true) 7 5 true 20 false two_accessed with
  | .ok (_, s) => s
  | .error _ => two_accessed

/-- The state after two passes of the loop of `evict_frame` in that run. -/
def two_accessed_passes : State :=
  match evict_frame_passes 7 2 (asked 7 true two_accessed).2 with
  | some s => s
  | none => two_accessed

/-- Two frames at 4096 and 8192, owned by entries 10 and 11, neither pinned nor accessed;
thread 7 holds the eviction lock and, from an earlier call with `should_pin` set, the lock
of frame 1; the hand at 0. -/
def held_elsewhere : State :=
  { frame_table := [⟨some 10, 4096, none⟩, ⟨some 11, 8192, some 7⟩],
    total_frames := 2, first_frame := 4096, frame_evict_lock := some 7, clock_hand := 0,
    sptes := fun _ => entry_of false, accessed := fun _ _ => false, pool := [],
    trace := [] }

/-! ## Lemmas on the loop of `evict_frame` -/

theorem modify_fixed {α : Type} (f : α → α) (l : List α) (i : Nat) (x : α)
    (h : l[i]? = some x) (hx : f x = x) : l.modify f i = l := by
  apply List.ext_getElem?
  intro j
  rw [List.getElem?_modify]
  by_cases hij : i = j
  · subst hij; simp [h, hx]
  · simp [hij]

theorem evict_frame_iter_eq (cur : Nat) (s : State) :
    evict_frame_iter cur s = evict_frame_iter_cases cur s := by
  unfold evict_frame_iter evict_frame_iter_cases
  cases hfr : s.frame_table[s.clock_hand]? with
  | none => rfl
  | some fr =>
    cases hl : fr.frame_lock with
    | some holder =>
      by_cases hc : holder = cur
      · simp [hl, hc, lock_try_acquire]
      · by_cases hg : s.frame_evict_lock = some cur
        · simp [hl, hc, hg, lock_try_acquire, advance_clock_hand, lock_held_by_current_thread,
            State.log, passed, next_hand]
        · simp [hl, hc, hg, lock_try_acquire, advance_clock_hand, lock_held_by_current_thread,
            State.log]
    | none =>
      by_cases hg : s.frame_evict_lock = some cur
      · cases he : fr.resident_page with
        | none => simp [hl, he, hg, lock_try_acquire, lock_release, State.log, State.set_frame_lock]
        | some e =>
          have hm : List.modify (fun fr : frame => { fr with frame_lock := none }) s.clock_hand
              s.frame_table = s.frame_table :=
            modify_fixed _ _ _ fr hfr (by cases fr; simp_all)
          by_cases hc : (s.accessed (s.sptes e).owner_thread.pagedir fr.physical_memory_addr
              || (s.sptes e).is_pinned) = true
          · simp only [hl, he, hg, lock_try_acquire, lock_release, State.log,
              State.set_frame_lock, pagedir_is_accessed, pagedir_set_accessed, lock_acquire,
              advance_clock_hand, lock_held_by_current_thread, hc, if_true,
              List.modify_modify_eq, skipped, next_hand]
            simp [hm, hg, Function.comp_def]
          · simp [hl, he, hg, lock_try_acquire, lock_release, State.log, State.set_frame_lock,
              pagedir_is_accessed, hc, chosen]
      · simp [hl, hg, lock_try_acquire, lock_release, State.log, State.set_frame_lock]

/-- A pass that breaks does so at an inspected frame that is owned, not pinned and not
accessed, and leaves the state `chosen`. -/
theorem iter_found_spec (cur : Nat) (s m : State) (i : Nat)
    (h : evict_frame_iter cur s = .ok (.found i m)) :
    ∃ fr e, s.frame_table[s.clock_hand]? = some fr ∧ fr.frame_lock = none ∧
      fr.resident_page = some e ∧ s.frame_evict_lock = some cur ∧
      (s.sptes e).is_pinned = false ∧
      s.accessed (s.sptes e).owner_thread.pagedir fr.physical_memory_addr = false ∧
      i = s.clock_hand ∧ m = chosen cur s fr e := by
  rw [evict_frame_iter_eq] at h
  unfold evict_frame_iter_cases at h
  cases hfr : s.frame_table[s.clock_hand]? with
  | none => simp [hfr] at h
  | some fr =>
    cases hl : fr.frame_lock with
    | some holder =>
      simp only [hfr, hl] at h
      split at h
      · simp at h
      · split at h <;> simp at h
    | none =>
      simp only [hfr, hl] at h
      by_cases hg : s.frame_evict_lock = some cur
      · cases he : fr.resident_page with
        | none => simp [hg, he] at h
        | some e =>
          simp only [hg, he, if_true] at h
          split at h
          · simp at h
          · rename_i hc
            simp only [Except.ok.injEq, Iter.found.injEq] at h
            simp only [Bool.or_eq_true, not_or, Bool.not_eq_true] at hc
            exact ⟨fr, e, rfl, hl, he, hg, hc.2, hc.1, h.1.symm, h.2.symm⟩
      · simp [hg] at h

theorem loop_found_spec (cur : Nat) : ∀ (fuel : Nat) (s m : State) (i : Nat),
    evict_frame_loop cur fuel s = .ok (i, m) →
    ∃ p fr e, p.frame_table[p.clock_hand]? = some fr ∧ fr.frame_lock = none ∧
      fr.resident_page = some e ∧ p.frame_evict_lock = some cur ∧
      (p.sptes e).is_pinned = false ∧
      p.accessed (p.sptes e).owner_thread.pagedir fr.physical_memory_addr = false ∧
      i = p.clock_hand ∧ m = chosen cur p fr e := by
  intro fuel
  induction fuel with
  | zero => intro s m i h; simp [evict_frame_loop] at h
  | succ n ih =>
    intro s m i h
    unfold evict_frame_loop at h
    cases hit : evict_frame_iter cur s with
    | error f => simp [hit] at h
    | ok r =>
      cases r with
      | again s1 =>
        simp only [hit] at h
        exact ih s1 m i h
      | found j s1 =>
        simp only [hit, Except.ok.injEq, Prod.mk.injEq] at h
        obtain ⟨fr, e, h1, h2, h3, h4, h5, h6, h7, h8⟩ := iter_found_spec cur s s1 j hit
        exact ⟨s, fr, e, h1, h2, h3, h4, h5, h6, by rw [← h.1, h7], by rw [← h.2, h8]⟩

theorem iter_of_victim (cur : Nat) (s : State) (fr : frame) (e : Nat)
    (hfr : s.frame_table[s.clock_hand]? = some fr) (hl : fr.frame_lock = none)
    (he : fr.resident_page = some e) (hg : s.frame_evict_lock = some cur)
    (hp : (s.sptes e).is_pinned = false)
    (ha : s.accessed (s.sptes e).owner_thread.pagedir fr.physical_memory_addr = false) :
    evict_frame_iter cur s = .ok (.found s.clock_hand (chosen cur s fr e)) := by
  rw [evict_frame_iter_eq]
  simp [evict_frame_iter_cases, hfr, hl, he, hg, hp, ha]

theorem iter_of_skip (cur : Nat) (s : State) (fr : frame) (e : Nat)
    (hfr : s.frame_table[s.clock_hand]? = some fr) (hl : fr.frame_lock = none)
    (he : fr.resident_page = some e) (hg : s.frame_evict_lock = some cur)
    (hc : (s.accessed (s.sptes e).owner_thread.pagedir fr.physical_memory_addr
      || (s.sptes e).is_pinned) = true) :
    evict_frame_iter cur s = .ok (.again (skipped s fr e)) := by
  rw [evict_frame_iter_eq]
  simp only [evict_frame_iter_cases, hfr, hl, he, hg, hc, if_true]

theorem evict_frame_of_loop (C : Collab) (cur fuel : Nat) (s p : State) (fr : frame) (e : Nat)
    (hg : s.frame_evict_lock = some cur)
    (hfr : p.frame_table[p.clock_hand]? = some fr) (he : fr.resident_page = some e)
    (hl : evict_frame_loop cur fuel s = .ok (p.clock_hand, chosen cur p fr e)) :
    evict_frame C cur fuel s = .ok (p.clock_hand, evicted C cur p fr e) := by
  have hm : (chosen cur p fr e).frame_table[p.clock_hand]? =
      some { fr with frame_lock := some cur } := by simp [chosen, hfr]
  unfold evict_frame
  simp only [lock_held_by_current_thread, hg, beq_self_eq_true, if_true, hl]
  simp only [evict_frame_writeback, hm, he]
  rfl

theorem next_hand_eq (s : State) (hs : s.total_frames < UINT32)
    (hh : s.clock_hand < s.total_frames) :
    next_hand s = (s.clock_hand + 1) % s.total_frames := by
  unfold next_hand
  have h1 : (s.clock_hand + 1) % UINT32 = s.clock_hand + 1 := Nat.mod_eq_of_lt (by omega)
  rw [h1]
  by_cases h : s.clock_hand + 1 ≥ s.total_frames
  · have : s.clock_hand + 1 = s.total_frames := by omega
    simp [this]
  · simp only [h, if_false]
    exact (Nat.mod_eq_of_lt (by omega)).symm

@[simp] theorem skip_frame_table (s : State) : (skip s).frame_table = s.frame_table := by
  unfold skip; split
  · rfl
  · split <;> rfl

@[simp] theorem skip_total_frames (s : State) : (skip s).total_frames = s.total_frames := by
  unfold skip; split
  · rfl
  · split <;> rfl

@[simp] theorem skip_sptes (s : State) : (skip s).sptes = s.sptes := by
  unfold skip; split
  · rfl
  · split <;> rfl

@[simp] theorem skip_frame_evict_lock (s : State) :
    (skip s).frame_evict_lock = s.frame_evict_lock := by
  unfold skip; split
  · rfl
  · split <;> rfl

@[simp] theorem skip_pool (s : State) : (skip s).pool = s.pool := by
  unfold skip; split
  · rfl
  · split <;> rfl

@[simp] theorem skip_first_frame (s : State) : (skip s).first_frame = s.first_frame := by
  unfold skip; split
  · rfl
  · split <;> rfl

theorem ready_getElem {cur : Nat} {s : State} (hr : Ready cur s) :
    ∃ fr, s.frame_table[s.clock_hand]? = some fr ∧ fr ∈ s.frame_table := by
  have hlt : s.clock_hand < s.frame_table.length := by rw [hr.len]; exact hr.hand
  exact ⟨s.frame_table[s.clock_hand], List.getElem?_eq_getElem hlt, List.getElem_mem hlt⟩

theorem skip_clock_hand {cur : Nat} {s : State} (hr : Ready cur s) :
    (skip s).clock_hand = (s.clock_hand + 1) % s.total_frames := by
  obtain ⟨fr, hfr, hmem⟩ := ready_getElem hr
  rw [← next_hand_eq s hr.size hr.hand]
  unfold skip
  simp only [hfr]
  cases hl : fr.frame_lock with
  | some h => rfl
  | none =>
    cases he : fr.resident_page with
    | none => exact absurd he (hr.owned fr hmem hl)
    | some e => rfl

theorem ready_skip {cur : Nat} {s : State} (hr : Ready cur s) : Ready cur (skip s) where
  len := by simpa using hr.len
  size := by simpa using hr.size
  hand := by
    rw [skip_clock_hand hr, skip_total_frames]
    exact Nat.mod_lt _ (by have := hr.hand; omega)
  held := by simpa using hr.held
  locks := by simpa using hr.locks
  owned := by simpa using hr.owned

theorem iter_skip {cur : Nat} {s : State} (hr : Ready cur s) (hv : victim_now s = false) :
    evict_frame_iter cur s = .ok (.again (skip s)) := by
  obtain ⟨fr, hfr, hmem⟩ := ready_getElem hr
  rw [evict_frame_iter_eq]
  unfold evict_frame_iter_cases skip
  unfold victim_now at hv
  simp only [hfr] at hv ⊢
  cases hl : fr.frame_lock with
  | some h =>
    have hne : h ≠ cur := fun hc => hr.locks fr hmem (by rw [hl, hc])
    simp [hne, hr.held]
  | none =>
    cases he : fr.resident_page with
    | none => exact absurd he (hr.owned fr hmem hl)
    | some e =>
      simp only [hl, he, Bool.not_eq_false'] at hv
      simp only [hr.held, hv, if_true]

theorem iter_victim {cur : Nat} {s : State} (hr : Ready cur s) (hv : victim_now s = true) :
    evict_frame_iter cur s = .ok (.found s.clock_hand (victim_state cur s)) := by
  obtain ⟨fr, hfr, hmem⟩ := ready_getElem hr
  rw [evict_frame_iter_eq]
  unfold evict_frame_iter_cases victim_state
  unfold victim_now at hv
  simp only [hfr] at hv ⊢
  cases hl : fr.frame_lock with
  | some h => simp [hl] at hv
  | none =>
    cases he : fr.resident_page with
    | none => simp [hl, he] at hv
    | some e =>
      simp only [hl, he, Bool.not_eq_true', Bool.or_eq_false_iff] at hv
      simp [hr.held, hv]

@[simp] theorem iterate_frame_table (s : State) (k : Nat) :
    (skip^[k] s).frame_table = s.frame_table := by
  induction k generalizing s with
  | zero => rfl
  | succ n ih => rw [Function.iterate_succ_apply, ih, skip_frame_table]

@[simp] theorem iterate_total_frames (s : State) (k : Nat) :
    (skip^[k] s).total_frames = s.total_frames := by
  induction k generalizing s with
  | zero => rfl
  | succ n ih => rw [Function.iterate_succ_apply, ih, skip_total_frames]

@[simp] theorem iterate_sptes (s : State) (k : Nat) : (skip^[k] s).sptes = s.sptes := by
  induction k generalizing s with
  | zero => rfl
  | succ n ih => rw [Function.iterate_succ_apply, ih, skip_sptes]

@[simp] theorem iterate_frame_evict_lock (s : State) (k : Nat) :
    (skip^[k] s).frame_evict_lock = s.frame_evict_lock := by
  induction k generalizing s with
  | zero => rfl
  | succ n ih => rw [Function.iterate_succ_apply, ih, skip_frame_evict_lock]

@[simp] theorem iterate_pool (s : State) (k : Nat) : (skip^[k] s).pool = s.pool := by
  induction k generalizing s with
  | zero => rfl
  | succ n ih => rw [Function.iterate_succ_apply, ih, skip_pool]

theorem ready_iterate {cur : Nat} {s : State} (hr : Ready cur s) (k : Nat) :
    Ready cur (skip^[k] s) := by
  induction k generalizing s with
  | zero => exact hr
  | succ n ih => rw [Function.iterate_succ_apply]; exact ih (ready_skip hr)

theorem iterate_clock_hand {cur : Nat} {s : State} (hr : Ready cur s) (k : Nat) :
    (skip^[k] s).clock_hand = (s.clock_hand + k) % s.total_frames := by
  induction k with
  | zero => exact (Nat.mod_eq_of_lt hr.hand).symm
  | succ n ih =>
    rw [Function.iterate_succ_apply', skip_clock_hand (ready_iterate hr n), ih, iterate_total_frames,
      Nat.mod_add_mod, Nat.add_assoc]

theorem loop_run {cur : Nat} : ∀ (k : Nat) (s : State), Ready cur s →
    (∀ j < k, victim_now (skip^[j] s) = false) → victim_now (skip^[k] s) = true →
    ∀ fuel, k < fuel → evict_frame_loop cur fuel s =
      .ok ((skip^[k] s).clock_hand, victim_state cur (skip^[k] s)) := by
  intro k
  induction k with
  | zero =>
    intro s hr _ hv fuel hf
    obtain ⟨n, rfl⟩ : ∃ n, fuel = n + 1 := ⟨fuel - 1, by omega⟩
    simp only [Function.iterate_zero, id_eq] at hv ⊢
    simp [evict_frame_loop, iter_victim hr hv]
  | succ n ih =>
    intro s hr hno hv fuel hf
    obtain ⟨m, rfl⟩ : ∃ m, fuel = m + 1 := ⟨fuel - 1, by omega⟩
    have h0 : victim_now s = false := hno 0 (by omega)
    simp only [evict_frame_loop, iter_skip hr h0]
    rw [Function.iterate_succ_apply] at hv ⊢
    refine ih (skip s) (ready_skip hr) ?_ hv m (by omega)
    intro j hj
    have := hno (j + 1) (by omega)
    rwa [Function.iterate_succ_apply] at this

theorem loop_stuck {cur : Nat} : ∀ (k : Nat) (s : State), Ready cur s →
    (∀ j < k, victim_now (skip^[j] s) = false) →
    evict_frame_loop cur k s = .error .out_of_fuel := by
  intro k
  induction k with
  | zero => intro s _ _; rfl
  | succ n ih =>
    intro s hr hno
    have h0 : victim_now s = false := hno 0 (by omega)
    simp only [evict_frame_loop, iter_skip hr h0]
    refine ih (skip s) (ready_skip hr) ?_
    intro j hj
    have := hno (j + 1) (by omega)
    rwa [Function.iterate_succ_apply] at this

theorem victim_now_spec {s : State} (hv : victim_now s = true) :
    ∃ fr e, s.frame_table[s.clock_hand]? = some fr ∧ fr.frame_lock = none ∧
      fr.resident_page = some e ∧ (s.sptes e).is_pinned = false ∧
      s.accessed (s.sptes e).owner_thread.pagedir fr.physical_memory_addr = false := by
  unfold victim_now at hv
  cases hfr : s.frame_table[s.clock_hand]? with
  | none => simp [hfr] at hv
  | some fr =>
    simp only [hfr] at hv
    cases hl : fr.frame_lock with
    | some h => simp [hl] at hv
    | none =>
      cases he : fr.resident_page with
      | none => simp [hl, he] at hv
      | some e =>
        simp only [hl, he, Bool.not_eq_true', Bool.or_eq_false_iff] at hv
        exact ⟨fr, e, rfl, hl, he, hv.2, hv.1⟩

theorem evict_frame_run (C : Collab) {cur : Nat} (k : Nat) (s : State) (hr : Ready cur s)
    (hno : ∀ j < k, victim_now (skip^[j] s) = false) (hv : victim_now (skip^[k] s) = true)
    (fuel : Nat) (hf : k < fuel) :
    evict_frame C cur fuel s =
      .ok ((skip^[k] s).clock_hand, evicted_state C cur (skip^[k] s)) := by
  obtain ⟨fr, e, hfr, hl, he, hp, ha⟩ := victim_now_spec hv
  have hloop := loop_run k s hr hno hv fuel hf
  have hvs : victim_state cur (skip^[k] s) = chosen cur (skip^[k] s) fr e := by
    simp only [victim_state, hfr, he]
  have hes : evicted_state C cur (skip^[k] s) = evicted C cur (skip^[k] s) fr e := by
    simp only [evicted_state, hfr, he]
  rw [hvs] at hloop
  rw [hes]
  exact evict_frame_of_loop C cur fuel s (skip^[k] s) fr e hr.held hfr he hloop

theorem skip_accessed_mono (s : State) (pd a : Nat) (h : (skip s).accessed pd a = true) :
    s.accessed pd a = true := by
  unfold skip at h
  split at h
  · exact h
  · split at h
    · exact h
    · simp only [skipped] at h
      split at h
      · simp at h
      · exact h
    · exact h

theorem iterate_accessed_mono (k : Nat) (s : State) (pd a : Nat)
    (h : (skip^[k] s).accessed pd a = true) : s.accessed pd a = true := by
  induction k generalizing s with
  | zero => exact h
  | succ n ih =>
    rw [Function.iterate_succ_apply] at h
    exact skip_accessed_mono s pd a (ih (skip s) h)

theorem skip_accessed_cleared {s : State} {fr : frame} {e : Nat}
    (hfr : s.frame_table[s.clock_hand]? = some fr) (hl : fr.frame_lock = none)
    (he : fr.resident_page = some e) :
    (skip s).accessed (s.sptes e).owner_thread.pagedir fr.physical_memory_addr = false := by
  simp [skip, hfr, hl, he, skipped]

theorem skip_accessed_kept {s : State} {fr : frame} (pd a : Nat)
    (hfr : s.frame_table[s.clock_hand]? = some fr) (ha : a ≠ fr.physical_memory_addr) :
    (skip s).accessed pd a = s.accessed pd a := by
  unfold skip
  simp only [hfr]
  split
  · rfl
  · simp [skipped, ha]
  · rfl

theorem iterate_accessed_cleared {cur : Nat} {s : State} (hr : Ready cur s) (j k : Nat)
    (hjk : j < k) (fr : frame) (e : Nat)
    (hfr : s.frame_table[(s.clock_hand + j) % s.total_frames]? = some fr)
    (hl : fr.frame_lock = none) (he : fr.resident_page = some e) :
    (skip^[k] s).accessed (s.sptes e).owner_thread.pagedir fr.physical_memory_addr = false := by
  obtain ⟨m, rfl⟩ : ∃ m, k = m + (j + 1) := ⟨k - (j + 1), by omega⟩
  rw [Function.iterate_add_apply, Function.iterate_succ_apply']
  have hfr' : (skip^[j] s).frame_table[(skip^[j] s).clock_hand]? = some fr := by
    rw [iterate_frame_table, iterate_clock_hand hr]; exact hfr
  have hc := skip_accessed_cleared hfr' hl he
  rw [iterate_sptes] at hc
  cases hacc : (skip^[m] (skip (skip^[j] s))).accessed (s.sptes e).owner_thread.pagedir
      fr.physical_memory_addr with
  | false => rfl
  | true => rw [iterate_accessed_mono m _ _ _ hacc] at hc; exact absurd hc (by simp)

theorem iterate_accessed_kept {cur : Nat} {s : State} (hr : Ready cur s)
    (hd : distinct_addrs s) (k x : Nat) (fr : frame) (hx : s.frame_table[x]? = some fr)
    (hne : ∀ i < k, (s.clock_hand + i) % s.total_frames ≠ x) (pd : Nat) :
    (skip^[k] s).accessed pd fr.physical_memory_addr = s.accessed pd fr.physical_memory_addr := by
  induction k with
  | zero => rfl
  | succ n ih =>
    rw [Function.iterate_succ_apply']
    obtain ⟨fr', hfr', _⟩ := ready_getElem (ready_iterate hr n)
    have hfr'' := hfr'
    rw [iterate_frame_table, iterate_clock_hand hr] at hfr''
    have hadd : fr.physical_memory_addr ≠ fr'.physical_memory_addr := by
      intro heq
      exact hne n (by omega) (hd _ _ _ _ hfr'' hx heq.symm)
    rw [skip_accessed_kept pd _ hfr' hadd]
    exact ih (fun i hi => hne i (by omega))

theorem skip_trace {cur : Nat} {s : State} (hr : Ready cur s) :
    ∃ t, (skip s).trace = t ++ s.trace ∧ t.count .advance = 1 ∧ inspections t ≤ 1 ∧
      (∀ e a, Event.evict_page e a ∉ t) ∧
      (∀ fr e, s.frame_table[s.clock_hand]? = some fr → fr.frame_lock = none →
        fr.resident_page = some e →
        Event.try_acquire_frame s.clock_hand true ∈ t ∧
        Event.set_accessed (s.sptes e).owner_thread.pagedir fr.physical_memory_addr false ∈ t) := by
  obtain ⟨fr, hfr, hmem⟩ := ready_getElem hr
  unfold skip
  simp only [hfr]
  cases hl : fr.frame_lock with
  | some h =>
    refine ⟨[.advance, .try_acquire_frame s.clock_hand false], rfl, by simp [List.count_cons],
      by simp [inspections, is_inspection], by simp, ?_⟩
    intro fr' e hfr' hl'
    simp only [Option.some.injEq] at hfr'
    subst hfr'
    rw [hl] at hl'
    exact absurd hl' (by simp)
  | none =>
    cases he : fr.resident_page with
    | none => exact absurd he (hr.owned fr hmem hl)
    | some e =>
      refine ⟨[.advance, .acquire_evict_lock, .release_frame s.clock_hand,
        .set_accessed (s.sptes e).owner_thread.pagedir fr.physical_memory_addr false,
        .is_accessed (s.sptes e).owner_thread.pagedir fr.physical_memory_addr,
        .release_evict_lock, .try_acquire_frame s.clock_hand true], rfl,
        by simp [List.count_cons], by simp [inspections, is_inspection], by simp, ?_⟩
      intro fr' e' hfr' _ he'
      simp only [Option.some.injEq] at hfr'
      subst hfr'
      rw [he] at he'
      simp only [Option.some.injEq] at he'
      subst he'
      simp

theorem iterate_trace {cur : Nat} {s : State} (hr : Ready cur s) (k : Nat) :
    ∃ t, (skip^[k] s).trace = t ++ s.trace ∧ t.count .advance = k ∧ inspections t ≤ k ∧
      (∀ e a, Event.evict_page e a ∉ t) ∧
      (∀ j < k, ∀ fr e, s.frame_table[(s.clock_hand + j) % s.total_frames]? = some fr →
        fr.frame_lock = none → fr.resident_page = some e →
        Event.try_acquire_frame ((s.clock_hand + j) % s.total_frames) true ∈ t ∧
        Event.set_accessed (s.sptes e).owner_thread.pagedir fr.physical_memory_addr false ∈ t) := by
  induction k with
  | zero => exact ⟨[], rfl, rfl, by simp [inspections], by simp, by intro j hj; omega⟩
  | succ n ih =>
    obtain ⟨t, ht, hc, hi, hev, hin⟩ := ih
    obtain ⟨t1, ht1, hc1, hi1, hev1, hin1⟩ := skip_trace (ready_iterate hr n)
    refine ⟨t1 ++ t, ?_, ?_, ?_, ?_, ?_⟩
    · rw [Function.iterate_succ_apply', ht1, ht, List.append_assoc]
    · rw [List.count_append, hc, hc1]; omega
    · unfold inspections at hi hi1 ⊢
      rw [List.countP_append]; omega
    · intro e a h
      rcases List.mem_append.1 h with h | h
      · exact hev1 e a h
      · exact hev e a h
    · intro j hj fr e hfr hl he
      by_cases hjn : j < n
      · obtain ⟨h1, h2⟩ := hin j hjn fr e hfr hl he
        exact ⟨List.mem_append_right _ h1, List.mem_append_right _ h2⟩
      · have hjn' : j = n := by omega
        subst hjn'
        have hfr' : (skip^[j] s).frame_table[(skip^[j] s).clock_hand]? = some fr := by
          rw [iterate_frame_table, iterate_clock_hand hr]; exact hfr
        obtain ⟨h1, h2⟩ := hin1 fr e hfr' hl he
        rw [iterate_clock_hand hr] at h1
        rw [iterate_sptes] at h2
        exact ⟨List.mem_append_left _ h1, List.mem_append_left _ h2⟩

theorem exists_offset (N P x : Nat) (hP : P < N) (hx : x < N) :
    ∃ d, d < N ∧ (P + d) % N = x := by
  by_cases h : P ≤ x
  · exact ⟨x - P, by omega, by rw [Nat.add_sub_cancel' h]; exact Nat.mod_eq_of_lt hx⟩
  · refine ⟨x + N - P, by omega, ?_⟩
    have : P + (x + N - P) = x + N := by omega
    rw [this, Nat.add_mod_right]
    exact Nat.mod_eq_of_lt hx

theorem evicted_state_trace (C : Collab) (cur : Nat) {s : State} (hv : victim_now s = true) :
    ∃ e a pd, (evicted_state C cur s).trace =
      [.evict_page e a, .is_accessed pd a, .release_evict_lock,
        .try_acquire_frame s.clock_hand true] ++ s.trace := by
  obtain ⟨fr, e, hfr, _, he, _, _⟩ := victim_now_spec hv
  exact ⟨e, fr.physical_memory_addr, (s.sptes e).owner_thread.pagedir, by
    simp only [evicted_state, hfr, he]; rfl⟩

theorem exists_victim {cur : Nat} {s : State} (hr : Ready cur s)
    (hu : ∃ fr ∈ s.frame_table, fr.frame_lock = none ∧
      ∃ e, fr.resident_page = some e ∧ (s.sptes e).is_pinned = false) :
    ∃ k, k < 2 * s.total_frames ∧ victim_now (skip^[k] s) = true := by
  obtain ⟨fr, hmem, hl, e, he, hp⟩ := hu
  obtain ⟨x, hx, hfr⟩ := List.getElem_of_mem hmem
  have hxN : x < s.total_frames := by rw [← hr.len]; exact hx
  obtain ⟨d, hd, hoff⟩ := exists_offset s.total_frames s.clock_hand x hr.hand hxN
  have hfr1 : s.frame_table[x]? = some fr := by rw [List.getElem?_eq_getElem hx, hfr]
  have hfr2 : s.frame_table[(s.clock_hand + d) % s.total_frames]? = some fr := by
    rw [hoff]; exact hfr1
  refine ⟨s.total_frames + d, by omega, ?_⟩
  have hhand : (skip^[s.total_frames + d] s).clock_hand = x := by
    rw [iterate_clock_hand hr, ← hoff]
    have : s.clock_hand + (s.total_frames + d) = s.clock_hand + d + s.total_frames := by omega
    rw [this, Nat.add_mod_right]
  have hacc := iterate_accessed_cleared hr d (s.total_frames + d)
    (by have := hr.hand; omega) fr e hfr2 hl he
  simp only [victim_now, iterate_frame_table, hhand, hfr1, hl, he, iterate_sptes, hacc, hp]
  rfl

theorem first_victim {cur : Nat} {s : State} (hr : Ready cur s)
    (hu : ∃ fr ∈ s.frame_table, fr.frame_lock = none ∧
      ∃ e, fr.resident_page = some e ∧ (s.sptes e).is_pinned = false) :
    ∃ k, k < 2 * s.total_frames ∧ victim_now (skip^[k] s) = true ∧
      ∀ j < k, victim_now (skip^[j] s) = false := by
  have hex : ∃ k, victim_now (skip^[k] s) = true := by
    obtain ⟨k, _, hk⟩ := exists_victim hr hu
    exact ⟨k, hk⟩
  obtain ⟨k0, hk0, hv0⟩ := exists_victim hr hu
  refine ⟨Nat.find hex, ?_, Nat.find_spec hex, ?_⟩
  · have := Nat.find_le (h := hex) hv0
    omega
  · intro j hj
    have := Nat.find_min hex hj
    simpa using this

theorem two_frames_ready : Ready 7 two_frames where
  len := rfl
  size := by decide
  hand := by decide
  held := rfl
  locks := by simp [two_frames]
  owned := by simp [two_frames]

theorem evict_frame_stuck (C : Collab) {cur : Nat} (k : Nat) (s : State) (hr : Ready cur s)
    (hno : ∀ j < k, victim_now (skip^[j] s) = false) :
    evict_frame C cur k s = .error .out_of_fuel := by
  unfold evict_frame
  simp only [lock_held_by_current_thread, hr.held, beq_self_eq_true, if_true,
    loop_stuck k s hr hno]

theorem victim_now_pinned {s : State}
    (hp : ∀ fr ∈ s.frame_table, ∀ e, fr.resident_page = some e → (s.sptes e).is_pinned = true) :
    victim_now s = false := by
  cases hv : victim_now s with
  | false => rfl
  | true =>
    obtain ⟨fr, e, hfr, _, he, hpin, _⟩ := victim_now_spec hv
    have := hp fr (List.mem_iff_getElem?.2 ⟨_, hfr⟩) e he
    rw [hpin] at this
    exact absurd this (by simp)

theorem pinned_frames_ready : Ready 7 pinned_frames where
  len := rfl
  size := by decide
  hand := by decide
  held := rfl
  locks := by simp [pinned_frames]
  owned := by simp [pinned_frames]

theorem offset_injective (N P i j : Nat) (hi : i < N) (hj : j < N)
    (h : (P + i) % N = (P + j) % N) : i = j := by
  have h1 : P + i ≡ P + j [MOD N] := h
  exact Nat.ModEq.eq_of_lt_of_lt (Nat.ModEq.add_left_cancel' P h1) hi hj

theorem one_pinned_first_round {cur : Nat} {s : State} {K : Nat} (hr : Ready cur s)
    (hd : distinct_addrs s) (h1 : OnePinned s K) (j : Nat) (hj : j < s.total_frames) :
    victim_now (skip^[j] s) = false := by
  cases hv : victim_now (skip^[j] s) with
  | false => rfl
  | true =>
    exfalso
    obtain ⟨fr, e, hfr, _, he, hpin, hacc⟩ := victim_now_spec hv
    rw [iterate_frame_table, iterate_clock_hand hr] at hfr
    rw [iterate_sptes] at hpin hacc
    by_cases hK : (s.clock_hand + j) % s.total_frames = K
    · obtain ⟨fr', e', hfr', he', hp'⟩ := h1.pinned
      rw [hK, hfr'] at hfr
      simp only [Option.some.injEq] at hfr
      subst hfr
      rw [he'] at he
      simp only [Option.some.injEq] at he
      subst he
      rw [hp'] at hpin
      exact absurd hpin (by simp)
    · have hkept := iterate_accessed_kept hr hd j _ fr hfr
        (fun i hi heq => by
          have := offset_injective s.total_frames s.clock_hand i j (by omega) hj heq
          omega) (s.sptes e).owner_thread.pagedir
      rw [hkept, (h1.others _ fr e hK hfr he).2] at hacc
      exact absurd hacc (by simp)

@[simp] theorem evicted_state_accessed (C : Collab) (cur : Nat) (s : State) :
    (evicted_state C cur s).accessed = s.accessed := by
  unfold evicted_state; split
  · rfl
  · split <;> rfl

theorem three_frames_ready : Ready 7 three_frames where
  len := rfl
  size := by decide
  hand := by decide
  held := rfl
  locks := by simp [three_frames]
  owned := by simp [three_frames]

theorem three_frames_distinct : distinct_addrs three_frames := by
  intro i j fr fr' hi hj h
  have hi' : i < 3 := (List.getElem?_eq_some_iff.1 hi).1
  have hj' : j < 3 := (List.getElem?_eq_some_iff.1 hj).1
  interval_cases i <;> interval_cases j <;>
    first
    | rfl
    | (simp only [three_frames, List.getElem?_cons_zero, List.getElem?_cons_succ,
        Option.some.injEq] at hi hj
       subst hi; subst hj; simp at h)

theorem three_frames_one_pinned : OnePinned three_frames 1 where
  pinned := ⟨⟨some 11, 8192, none⟩, 11, rfl, rfl, rfl⟩
  others := by
    intro x fr e hx hfr he
    have hx' : x < 3 := (List.getElem?_eq_some_iff.1 hfr).1
    interval_cases x <;>
      first
      | exact absurd rfl hx
      | (simp only [three_frames, List.getElem?_cons_zero, List.getElem?_cons_succ,
          Option.some.injEq] at hfr
         subst hfr
         simp only [Option.some.injEq] at he
         subst he
         simp [three_frames, entry_of])

/-! ## Claims on `evict_frame` -/

/-- C1: when `evict_frame` returns frame `i`, the last pass of its loop started in a state
`p` with the hand at `i`, where frame `i` was owned by an entry whose pin flag was false
and whose accessed bit was false; the loop broke there, and the returned frame still has
that owner.  A frame whose owner is pinned is never returned. -/
theorem evict_frame_victim_not_pinned (C : Collab) (cur fuel : Nat) (s s' : State) (i : Nat)
    (h : evict_frame C cur fuel s = .ok (i, s')) :
    ∃ p fr e, p.clock_hand = i ∧ p.frame_table[i]? = some fr ∧ fr.resident_page = some e ∧
      (p.sptes e).is_pinned = false ∧
      p.accessed (p.sptes e).owner_thread.pagedir fr.physical_memory_addr = false ∧
      evict_frame_loop cur fuel s = .ok (i, chosen cur p fr e) ∧
      s'.frame_table[i]? = some { fr with frame_lock := some cur } := by
  unfold evict_frame at h
  split at h
  · cases hl : evict_frame_loop cur fuel s with
    | error f => simp [hl] at h
    | ok r =>
      obtain ⟨j, m⟩ := r
      obtain ⟨p, fr, e, h1, h2, h3, h4, h5, h6, h7, h8⟩ := loop_found_spec cur fuel s m j hl
      have hm : m.frame_table[j]? = some { fr with frame_lock := some cur } := by
        rw [h8, h7]; simp [chosen, h1]
      simp only [hl, evict_frame_writeback, hm, h3] at h
      simp only [Except.ok.injEq, Prod.mk.injEq] at h
      obtain ⟨hj, hs⟩ := h
      subst hj
      refine ⟨p, fr, e, h7.symm, by rw [h7]; exact h1, h3, h5, h6, by rw [h8], ?_⟩
      rw [← hs]; exact hm
  · simp at h

/-- Witness of C1: on `two_frames` the pinned frame 0 is passed over and frame 1 is returned. -/
theorem evict_frame_victim_not_pinned_witness :
    ∃ p fr e, p.clock_hand = 1 ∧ p.frame_table[1]? = some fr ∧ fr.resident_page = some e ∧
      (p.sptes e).is_pinned = false ∧
      p.accessed (p.sptes e).owner_thread.pagedir fr.physical_memory_addr = false ∧
      evict_frame_loop 7 5 two_frames = .ok (1, chosen 7 p fr e) ∧
      two_frames_evicted.frame_table[1]? = some { fr with frame_lock := some 7 } :=
  evict_frame_victim_not_pinned (plain_collab true) 7 5 two_frames two_frames_evicted 1 (by rfl)

/-- C2: with the eviction lock held, the hand at `P < N`, and every frame owned, unlocked,
not pinned and not accessed, `evict_frame` returns frame `P`; it logs no advance, leaves
the hand at `P`, and returns with the lock of frame `P` held and the eviction lock
released. -/
theorem evict_frame_first_victim (C : Collab) (cur fuel : Nat) (s : State)
    (hlen : s.frame_table.length = s.total_frames)
    (hP : s.clock_hand < s.total_frames) (hg : s.frame_evict_lock = some cur)
    (hall : ∀ fr ∈ s.frame_table, fr.frame_lock = none ∧ ∃ e, fr.resident_page = some e ∧
      (s.sptes e).is_pinned = false ∧
      s.accessed (s.sptes e).owner_thread.pagedir fr.physical_memory_addr = false) :
    ∃ s' t, evict_frame C cur (fuel + 1) s = .ok (s.clock_hand, s') ∧
      s'.clock_hand = s.clock_hand ∧ s'.trace = t ++ s.trace ∧ Event.advance ∉ t ∧
      s'.frame_evict_lock = none ∧
      (s'.frame_table[s.clock_hand]?).map frame.frame_lock = some (some cur) := by
  have hlt : s.clock_hand < s.frame_table.length := by omega
  have hfr : s.frame_table[s.clock_hand]? = some (s.frame_table[s.clock_hand]) :=
    List.getElem?_eq_getElem hlt
  obtain ⟨hl, e, he, hp, ha⟩ := hall _ (List.getElem_mem hlt)
  have hloop : evict_frame_loop cur (fuel + 1) s =
      .ok (s.clock_hand, chosen cur s (s.frame_table[s.clock_hand]) e) := by
    simp [evict_frame_loop, iter_of_victim cur s _ e hfr hl he hg hp ha]
  refine ⟨evicted C cur s _ e, [.evict_page e (s.frame_table[s.clock_hand]).physical_memory_addr,
    .is_accessed (s.sptes e).owner_thread.pagedir (s.frame_table[s.clock_hand]).physical_memory_addr,
    .release_evict_lock, .try_acquire_frame s.clock_hand true],
    evict_frame_of_loop C cur (fuel + 1) s s _ e hg hfr he hloop, rfl, rfl, by simp, rfl, ?_⟩
  simp [evicted, chosen, hfr]

/-- Witness of C2: on `quiet_frames`, with the hand at 1, frame 1 is returned. -/
theorem evict_frame_first_victim_witness :
    ∃ s' t, evict_frame (plain_collab true) 7 (0 + 1) quiet_frames = .ok (1, s') ∧
      s'.clock_hand = 1 ∧ s'.trace = t ++ quiet_frames.trace ∧ Event.advance ∉ t ∧
      s'.frame_evict_lock = none ∧
      (s'.frame_table[1]?).map frame.frame_lock = some (some 7) :=
  evict_frame_first_victim (plain_collab true) 7 0 quiet_frames rfl (by decide) rfl
    (by simp [quiet_frames, entry_of])

/-- C3: with frame `K` pinned, every other frame unpinned with its accessed bit set, all
frame locks free and the physical addresses of the frames distinct, `evict_frame` returns a
frame other than `K` after `k ≥ total_frames` passes that did not break (with fuel up to
`k` it is still in its loop); its trace holds `k` advances, an inspection of every frame,
and the clearing of the accessed bit of every frame other than `K`, whose accessed bits
are false on return. -/
theorem evict_frame_one_pinned (C : Collab) (cur : Nat) (s : State) (K : Nat)
    (hr : Ready cur s) (hN : 2 ≤ s.total_frames)
    (hfree : ∀ fr ∈ s.frame_table, fr.frame_lock = none) (hd : distinct_addrs s)
    (h1 : OnePinned s K) :
    ∃ k i s' t, s.total_frames ≤ k ∧
      (∀ fuel, k < fuel → evict_frame C cur fuel s = .ok (i, s')) ∧
      (∀ fuel, fuel ≤ k → evict_frame C cur fuel s = .error .out_of_fuel) ∧
      i ≠ K ∧ s'.trace = t ++ s.trace ∧ t.count .advance = k ∧
      (∀ x, x < s.total_frames → Event.try_acquire_frame x true ∈ t) ∧
      (∀ (x : Nat) (fr : frame) (e : Nat), x ≠ K → s.frame_table[x]? = some fr →
        fr.resident_page = some e →
        Event.set_accessed (s.sptes e).owner_thread.pagedir fr.physical_memory_addr false ∈ t ∧
        s'.accessed (s.sptes e).owner_thread.pagedir fr.physical_memory_addr = false) := by
  -- every frame is unlocked and owned
  have hframe : ∀ x, x < s.total_frames → ∃ fr e, s.frame_table[x]? = some fr ∧
      fr ∈ s.frame_table ∧ fr.frame_lock = none ∧ fr.resident_page = some e := by
    intro x hx
    have hlt : x < s.frame_table.length := by rw [hr.len]; exact hx
    have hmem := List.getElem_mem hlt
    have hl := hfree _ hmem
    cases he : (s.frame_table[x]).resident_page with
    | none => exact absurd he (hr.owned _ hmem hl)
    | some e => exact ⟨_, e, List.getElem?_eq_getElem hlt, hmem, hl, he⟩
  -- some frame other than K has an unpinned owner
  have hu : ∃ fr ∈ s.frame_table, fr.frame_lock = none ∧
      ∃ e, fr.resident_page = some e ∧ (s.sptes e).is_pinned = false := by
    by_cases hK0 : K = 0
    · obtain ⟨fr, e, hfr, hmem, hl, he⟩ := hframe 1 (by omega)
      exact ⟨fr, hmem, hl, e, he, (h1.others 1 fr e (by omega) hfr he).1⟩
    · obtain ⟨fr, e, hfr, hmem, hl, he⟩ := hframe 0 (by omega)
      exact ⟨fr, hmem, hl, e, he, (h1.others 0 fr e (fun h => hK0 h.symm) hfr he).1⟩
  obtain ⟨k, _, hv, hno⟩ := first_victim hr hu
  have hNk : s.total_frames ≤ k := by
    by_contra hlt
    have := one_pinned_first_round hr hd h1 k (by omega)
    rw [hv] at this
    exact absurd this (by simp)
  obtain ⟨t, ht, hc, _, _, hin⟩ := iterate_trace hr k
  obtain ⟨e0, a0, pd0, hte⟩ := evicted_state_trace C cur hv
  refine ⟨k, (skip^[k] s).clock_hand, evicted_state C cur (skip^[k] s),
    [.evict_page e0 a0, .is_accessed pd0 a0, .release_evict_lock,
      .try_acquire_frame (skip^[k] s).clock_hand true] ++ t, hNk,
    fun fuel hf => evict_frame_run C k s hr hno hv fuel hf,
    fun fuel hf => evict_frame_stuck C fuel s hr (fun j hj => hno j (by omega)),
    ?_, ?_, ?_, ?_, ?_⟩
  · intro hiK
    obtain ⟨fr, e, hfr, _, he, hpin, _⟩ := victim_now_spec hv
    obtain ⟨fr', e', hfr', he', hp'⟩ := h1.pinned
    rw [iterate_frame_table, hiK, hfr'] at hfr
    simp only [Option.some.injEq] at hfr
    subst hfr
    rw [he'] at he
    simp only [Option.some.injEq] at he
    subst he
    rw [iterate_sptes, hp'] at hpin
    exact absurd hpin (by simp)
  · rw [hte, ht, List.append_assoc]
  · rw [List.count_append, hc]; simp [List.count_cons]
  · intro x hx
    obtain ⟨d, hdN, hoff⟩ := exists_offset s.total_frames s.clock_hand x hr.hand hx
    obtain ⟨fr, e, hfr, _, hl, he⟩ := hframe x hx
    have := (hin d (by omega) fr e (by rw [hoff]; exact hfr) hl he).1
    rw [hoff] at this
    exact List.mem_append_right _ this
  · intro x fr e hxK hfr he
    have hx : x < s.total_frames := by
      rw [← hr.len]
      exact (List.getElem?_eq_some_iff.1 hfr).1
    obtain ⟨d, hdN, hoff⟩ := exists_offset s.total_frames s.clock_hand x hr.hand hx
    have hl := hfree fr (List.mem_iff_getElem?.2 ⟨_, hfr⟩)
    have hfr' : s.frame_table[(s.clock_hand + d) % s.total_frames]? = some fr := by
      rw [hoff]; exact hfr
    refine ⟨List.mem_append_right _ (hin d (by omega) fr e hfr' hl he).2, ?_⟩
    rw [evicted_state_accessed]
    exact iterate_accessed_cleared hr d k (by omega) fr e hfr' hl he

/-- Witness of C3: `three_frames` with frame 1 pinned. -/
theorem evict_frame_one_pinned_witness :
    ∃ k i s' t, three_frames.total_frames ≤ k ∧
      (∀ fuel, k < fuel → evict_frame (plain_collab true) 7 fuel three_frames = .ok (i, s')) ∧
      (∀ fuel, fuel ≤ k →
        evict_frame (plain_collab true) 7 fuel three_frames = .error .out_of_fuel) ∧
      i ≠ 1 ∧ s'.trace = t ++ three_frames.trace ∧ t.count .advance = k ∧
      (∀ x, x < three_frames.total_frames → Event.try_acquire_frame x true ∈ t) ∧
      (∀ (x : Nat) (fr : frame) (e : Nat), x ≠ 1 → three_frames.frame_table[x]? = some fr →
        fr.resident_page = some e →
        Event.set_accessed (three_frames.sptes e).owner_thread.pagedir
          fr.physical_memory_addr false ∈ t ∧
        s'.accessed (three_frames.sptes e).owner_thread.pagedir
          fr.physical_memory_addr = false) :=
  evict_frame_one_pinned (plain_collab true) 7 three_frames 1 three_frames_ready (by decide)
    (by simp [three_frames]) three_frames_distinct three_frames_one_pinned

/-- C4: from a state in which the loop runs without a fault and some unlocked frame has an
unpinned owner, `evict_frame` returns: there is a number `k < 2 * total_frames` of passes
that did not break after which it returns with any fuel above `k`; it logs `k` advances
and at most `2 * total_frames` inspections. -/
theorem evict_frame_terminates (C : Collab) (cur : Nat) (s : State) (hr : Ready cur s)
    (hu : ∃ fr ∈ s.frame_table, fr.frame_lock = none ∧
      ∃ e, fr.resident_page = some e ∧ (s.sptes e).is_pinned = false) :
    ∃ k i s' t, k < 2 * s.total_frames ∧
      (∀ fuel, k < fuel → evict_frame C cur fuel s = .ok (i, s')) ∧
      s'.trace = t ++ s.trace ∧ t.count .advance = k ∧
      inspections t ≤ 2 * s.total_frames := by
  obtain ⟨k, hk, hv, hno⟩ := first_victim hr hu
  obtain ⟨t, ht, hc, hi, _, _⟩ := iterate_trace hr k
  obtain ⟨e, a, pd, hte⟩ := evicted_state_trace C cur hv
  refine ⟨k, (skip^[k] s).clock_hand, evicted_state C cur (skip^[k] s),
    [.evict_page e a, .is_accessed pd a, .release_evict_lock,
      .try_acquire_frame (skip^[k] s).clock_hand true] ++ t, hk,
    fun fuel hf => evict_frame_run C k s hr hno hv fuel hf, ?_, ?_, ?_⟩
  · rw [hte, ht, List.append_assoc]
  · rw [List.count_append, hc]; simp [List.count_cons]
  · unfold inspections at hi ⊢
    rw [List.countP_append]
    have : List.countP is_inspection [Event.evict_page e a, Event.is_accessed pd a,
        Event.release_evict_lock, Event.try_acquire_frame (skip^[k] s).clock_hand true] = 1 := by
      simp [List.countP_cons, is_inspection]
    omega

/-- Witness of C4: `two_frames` has the unpinned owner 11 in frame 1. -/
theorem evict_frame_terminates_witness :
    ∃ k i s' t, k < 2 * two_frames.total_frames ∧
      (∀ fuel, k < fuel → evict_frame (plain_collab true) 7 fuel two_frames = .ok (i, s')) ∧
      s'.trace = t ++ two_frames.trace ∧ t.count .advance = k ∧
      inspections t ≤ 2 * two_frames.total_frames :=
  evict_frame_terminates (plain_collab true) 7 two_frames two_frames_ready
    ⟨⟨some 11, 8192, none⟩, by simp [two_frames], rfl, 11, rfl, rfl⟩

/-- C5: when every owner of a frame is pinned, `evict_frame` never returns: for every `k`
the pass that starts after `k` passes goes round again, `evict_frame` run with fuel `k`
is still in its loop, and the trace of the `k` passes holds no call of the evictor. -/
theorem evict_frame_all_pinned (C : Collab) (cur : Nat) (s : State) (k : Nat)
    (hr : Ready cur s)
    (hp : ∀ fr ∈ s.frame_table, ∀ e, fr.resident_page = some e → (s.sptes e).is_pinned = true) :
    evict_frame_iter cur (skip^[k] s) = .ok (.again (skip^[k + 1] s)) ∧
      evict_frame C cur k s = .error .out_of_fuel ∧
      ∃ t, (skip^[k] s).trace = t ++ s.trace ∧ ∀ e a, Event.evict_page e a ∉ t := by
  have hno : ∀ j, victim_now (skip^[j] s) = false := by
    intro j
    apply victim_now_pinned
    simpa using hp
  refine ⟨?_, evict_frame_stuck C k s hr (fun j _ => hno j), ?_⟩
  · rw [Function.iterate_succ_apply']
    exact iter_skip (ready_iterate hr k) (hno k)
  · obtain ⟨t, ht, _, _, hev, _⟩ := iterate_trace hr k
    exact ⟨t, ht, hev⟩

/-- Witness of C5: `pinned_frames` has every owner pinned; after 5 passes the loop is still
running. -/
theorem evict_frame_all_pinned_witness :
    evict_frame_iter 7 (skip^[5] pinned_frames) = .ok (.again (skip^[5 + 1] pinned_frames)) ∧
      evict_frame (plain_collab true) 7 5 pinned_frames = .error .out_of_fuel ∧
      ∃ t, (skip^[5] pinned_frames).trace = t ++ pinned_frames.trace ∧
        ∀ e a, Event.evict_page e a ∉ t :=
  evict_frame_all_pinned (plain_collab true) 7 pinned_frames 5 pinned_frames_ready
    (by simp [pinned_frames, entry_of])

/-! ## Lemmas on `frame_handler_palloc` -/

theorem evict_frame_locked (C : Collab) (cur fuel : Nat) (s s' : State) (i : Nat)
    (h : evict_frame C cur fuel s = .ok (i, s')) :
    ∃ fr, s'.frame_table[i]? = some fr ∧ fr.frame_lock = some cur := by
  unfold evict_frame at h
  split at h
  · cases hl : evict_frame_loop cur fuel s with
    | error f => simp [hl] at h
    | ok r =>
      obtain ⟨j, m⟩ := r
      obtain ⟨p, fr, e, h1, h2, h3, h4, h5, h6, h7, h8⟩ := loop_found_spec cur fuel s m j hl
      have hm : m.frame_table[j]? = some { fr with frame_lock := some cur } := by
        rw [h8, h7]; simp [chosen, h1]
      simp only [hl, evict_frame_writeback, hm, h3] at h
      simp only [Except.ok.injEq, Prod.mk.injEq] at h
      obtain ⟨hj, hs⟩ := h
      subst hj
      exact ⟨{ fr with frame_lock := some cur }, by rw [← hs]; exact hm, rfl⟩
  · simp at h

theorem obtain_locked (C : Collab) (cur fuel : Nat) (zeros : Bool) (s s1 : State) (i a : Nat)
    (h : frame_handler_palloc_obtain C cur fuel zeros s = .ok (i, a, s1)) :
    ∃ fr, s1.frame_table[i]? = some fr ∧ fr.frame_lock = some cur := by
  unfold frame_handler_palloc_obtain at h
  cases hg : lock_acquire s.frame_evict_lock cur with
  | error f => simp [hg] at h
  | ok g =>
    simp only [hg] at h
    split at h
    · rename_i hne
      split at h
      · simp at h
      · rename_i j hj
        split at h
        · simp at h
        · rename_i fr hfr
          cases hl : lock_acquire fr.frame_lock cur with
          | error f => simp [hl] at h
          | ok l =>
            have hl' : l = some cur := by
              unfold lock_acquire at hl
              split at hl
              · simpa using hl.symm
              · split at hl <;> simp at hl
            simp only [hl] at h
            split at h
            · simp at h
            · split at h
              · simp only [Except.ok.injEq, Prod.mk.injEq] at h
                obtain ⟨h1, _, h3⟩ := h
                subst h1
                refine ⟨{ fr with frame_lock := l }, ?_, hl'⟩
                rw [← h3]
                simp [State.log, State.set_frame_lock, hfr]
              · simp at h
    · cases he : evict_frame C cur fuel (palloc_get_page
          { s with frame_evict_lock := g, trace := .acquire_evict_lock :: s.trace } zeros).2 with
      | error f => simp [he] at h
      | ok r =>
        obtain ⟨j, s3⟩ := r
        simp only [he, Except.ok.injEq, Prod.mk.injEq] at h
        obtain ⟨h1, _, h3⟩ := h
        subst h1; subst h3
        exact evict_frame_locked C cur fuel _ _ _ he

theorem finish_success (C : Collab) (cur : Nat) (zeros : Bool) (target : Nat)
    (should_pin : Bool) (i a : Nat) (s : State) (fr : frame)
    (hfr : s.frame_table[i]? = some fr) (hl : fr.frame_lock = some cur)
    (hload : (C.load_page_into_physical_memory s.sptes target a).1 = true) :
    ∃ s', frame_handler_palloc_finish C cur zeros target should_pin i a s = .ok (true, s') ∧
      (s'.frame_table[i]?).map frame.resident_page = some (some target) ∧
      (s'.sptes target).is_loaded = true ∧
      (s'.sptes target).loc = ((C.load_page_into_physical_memory s.sptes target a).2 target).loc ∧
      (∀ p, p ≠ target →
        s'.sptes p = (C.load_page_into_physical_memory s.sptes target a).2 p) := by
  unfold frame_handler_palloc_finish
  simp only [hfr]
  cases zeros <;> cases should_pin <;>
    simp only [State.log, hload, if_true, not_true_eq_false, if_false, hl, lock_release,
      Bool.true_eq_false, Bool.false_eq_true] <;>
    refine ⟨_, rfl, ?_, ?_, ?_, ?_⟩ <;>
    first
    | (intro p hp; simp [hp, State.set_resident_page, State.set_frame_lock, State.log])
    | simp [State.set_resident_page, State.set_frame_lock, State.log, hfr]

theorem filter_is_evict_nil (t : List Event) (h : ∀ e a, Event.evict_page e a ∉ t) :
    t.filter is_evict = [] := by
  rw [List.filter_eq_nil_iff]
  intro x hx hev
  cases x <;> simp [is_evict] at hev
  exact h _ _ hx

theorem finish_spec (C : Collab) (cur : Nat) (zeros : Bool) (target : Nat)
    (should_pin : Bool) (i a : Nat) (s : State) (fr : frame)
    (hfr : s.frame_table[i]? = some fr) (hl : fr.frame_lock = some cur) :
    ∃ s', frame_handler_palloc_finish C cur zeros target should_pin i a s =
        .ok ((C.load_page_into_physical_memory s.sptes target a).1, s') ∧
      s'.trace.filter is_evict = s.trace.filter is_evict ∧
      (∀ p, p ≠ target →
        s'.sptes p = (C.load_page_into_physical_memory s.sptes target a).2 p) := by
  unfold frame_handler_palloc_finish
  simp only [hfr]
  have hfree : ∀ s0 : State, (palloc_free_page s0 a).sptes = s0.sptes ∧
      (palloc_free_page s0 a).trace = .palloc_free a :: s0.trace := by
    intro s0
    unfold palloc_free_page
    split <;> exact ⟨rfl, rfl⟩
  cases hload : (C.load_page_into_physical_memory s.sptes target a).1 <;>
  cases zeros <;> cases should_pin <;>
    simp only [State.log, hload, if_true, not_true_eq_false, if_false, hl, lock_release,
      Bool.true_eq_false, Bool.false_eq_true, not_false_eq_true] <;>
    refine ⟨_, rfl, ?_, ?_⟩ <;>
    first
    | (intro p hp
       simp [hp, State.set_resident_page, State.set_frame_lock, State.log, (hfree _).1])
    | simp [State.set_resident_page, State.set_frame_lock, State.log, List.filter_cons,
        is_evict, (hfree _).2, (hfree _).1]

theorem obtain_exhausted (C : Collab) (cur fuel : Nat) (zeros : Bool) (s : State)
    (hlock : s.frame_evict_lock = none) (hpool : s.pool = []) :
    frame_handler_palloc_obtain C cur fuel zeros s =
      match evict_frame C cur fuel (exhausted cur zeros s) with
      | .error f => .error f
      | .ok (i, s3) => .ok (i, 0, s3) := by
  unfold frame_handler_palloc_obtain
  simp only [hlock, lock_acquire, palloc_get_page, hpool, State.log, ne_eq, not_true_eq_false,
    if_false, exhausted]

theorem get_frame_index_of_frame (s : State) (N base i : Nat) (hfirst : s.first_frame = base)
    (htotal : s.total_frames = N) (hbase : base ≠ 0) (hfit : base + N * 4096 ≤ UINT32)
    (hi : i < N) : get_frame_index s (base + i * 4096) = .ok i := by
  unfold get_frame_index
  have h1 : base % UINT32 = base := Nat.mod_eq_of_lt (by omega)
  have h2 : (base + i * 4096) % UINT32 = base + i * 4096 := Nat.mod_eq_of_lt (by omega)
  have h3 : (base + i * 4096 - base) % UINT32 = i * 4096 := by
    rw [Nat.add_sub_cancel_left]; exact Nat.mod_eq_of_lt (by omega)
  have h4 : (i * 4096) >>> 12 = i := by
    rw [Nat.shiftRight_eq_div_pow]; omega
  simp only [hfirst, htotal, h1, h2, h3, h4, hbase, if_false, hi, if_true, Nat.le_add_right,
    not_true_eq_false]

theorem obtain_direct (C : Collab) (cur fuel : Nat) (zeros : Bool) (s : State)
    (N base a : Nat) (rest : List Nat) (hd : Direct N base s) (hp : s.pool = a :: rest) :
    ∃ i fr, a = base + i * 4096 ∧ s.frame_table[i]? = some fr ∧ fr.resident_page = none ∧
      fr.frame_lock = none ∧
      frame_handler_palloc_obtain C cur fuel zeros s = .ok (i, a, claimed cur zeros s i a rest) := by
  obtain ⟨i, fr, ha, hfr, hown⟩ := hd.pool_free a (by rw [hp]; simp)
  have hi : i < N := by rw [← hd.len]; exact (List.getElem?_eq_some_iff.1 hfr).1
  have hl := (hd.frames i fr hfr).2
  have ha0 : a ≠ 0 := by have := hd.base_ne; omega
  refine ⟨i, fr, ha, hfr, hown, hl, ?_⟩
  unfold frame_handler_palloc_obtain
  simp only [hd.lock, lock_acquire, palloc_get_page, hp, ne_eq, ha0, not_false_eq_true, if_true]
  have hgi : get_frame_index
      { s with frame_evict_lock := some cur,
               pool := rest,
               trace := .palloc_get zeros a :: .acquire_evict_lock :: s.trace } a = .ok i := by
    rw [ha]
    exact get_frame_index_of_frame _ N base i hd.first hd.total hd.base_ne hd.fit hi
  simp only [hgi, hfr, hl, State.log, State.set_frame_lock, lock_release, if_true, hown, claimed]

theorem finish_unpinned (C : Collab) (cur : Nat) (zeros : Bool) (target : Nat)
    (i a : Nat) (m : State) (fr : frame)
    (hfr : m.frame_table[i]? = some fr) (hl : fr.frame_lock = some cur)
    (hload : (C.load_page_into_physical_memory m.sptes target a).1 = true) :
    ∃ s', frame_handler_palloc_finish C cur zeros target false i a m = .ok (true, s') ∧
      s'.frame_table = m.frame_table.modify
        (fun fr => { fr with resident_page := some target, frame_lock := none }) i ∧
      s'.pool = m.pool ∧ s'.frame_evict_lock = m.frame_evict_lock ∧
      s'.total_frames = m.total_frames ∧ s'.first_frame = m.first_frame ∧
      s'.trace.filter is_evict = m.trace.filter is_evict := by
  unfold frame_handler_palloc_finish
  simp only [hfr]
  cases zeros <;>
    simp only [State.log, hload, if_true, not_true_eq_false, if_false, hl, lock_release,
      Bool.false_eq_true] <;>
    refine ⟨_, rfl, ?_, rfl, rfl, rfl, rfl, ?_⟩ <;>
    simp only [State.set_resident_page, State.set_frame_lock, List.modify_modify_eq] <;>
    rfl

theorem palloc_direct (C : Collab) (cur fuel : Nat) (zeros : Bool) (target : Nat) (s : State)
    (N base a : Nat) (rest : List Nat) (hd : Direct N base s) (hp : s.pool = a :: rest)
    (hload : (C.load_page_into_physical_memory s.sptes target a).1 = true) :
    ∃ i s', frame_handler_palloc C cur fuel zeros target false s = .ok (true, s') ∧
      i < N ∧ unowned s i ∧
      s'.frame_table = s.frame_table.modify
        (fun fr => { fr with resident_page := some target }) i ∧
      s'.pool = rest ∧ Direct N base s' := by
  obtain ⟨i, fr, ha, hfr, hown, hl, hob⟩ := obtain_direct C cur fuel zeros s N base a rest hd hp
  have hi : i < N := by rw [← hd.len]; exact (List.getElem?_eq_some_iff.1 hfr).1
  have hfr' : (claimed cur zeros s i a rest).frame_table[i]? =
      some { fr with frame_lock := some cur } := by
    simp only [claimed, List.getElem?_modify_eq, hfr]; rfl
  obtain ⟨s', hfin, htab, hpool, hlock, htot, hfirst, htr⟩ :=
    finish_unpinned C cur zeros target i a (claimed cur zeros s i a rest) _ hfr' rfl hload
  have htab' : s'.frame_table = s.frame_table.modify
      (fun fr => { fr with resident_page := some target }) i := by
    rw [htab]
    simp only [claimed, List.modify_modify_eq]
    apply List.ext_getElem?
    intro j
    rw [List.getElem?_modify, List.getElem?_modify]
    by_cases hij : i = j
    · subst hij; simp [hfr, hl]
    · simp [hij]
  refine ⟨i, s', by simp only [frame_handler_palloc, hob]; exact hfin, hi, ⟨fr, hfr, hown⟩,
    htab', hpool, ?_⟩
  have hnd : (a :: rest).Nodup := by rw [← hp]; exact hd.pool_nodup
  exact {
    len := by rw [htab', List.length_modify]; exact hd.len
    total := by rw [htot]; exact hd.total
    first := by rw [hfirst]; exact hd.first
    base_ne := hd.base_ne
    fit := hd.fit
    lock := by rw [hlock]; rfl
    frames := by
      intro j fr' hj
      rw [htab', List.getElem?_modify] at hj
      cases hsj : s.frame_table[j]? with
      | none => simp [hsj] at hj
      | some fr0 =>
        simp only [hsj, Option.map_eq_map, Option.map_some', Option.some.injEq] at hj
        have := hd.frames j fr0 hsj
        subst hj
        split <;> exact this
    pool_nodup := by rw [hpool]; exact (List.nodup_cons.1 hnd).2
    pool_free := by
      intro a' ha'
      rw [hpool] at ha'
      obtain ⟨j, fr0, haj, hfj, hoj⟩ := hd.pool_free a' (by rw [hp]; exact List.mem_cons_of_mem _ ha')
      have hne : i ≠ j := by
        intro hij
        have : a' = a := by rw [haj, ha, hij]
        exact (List.nodup_cons.1 hnd).1 (this ▸ ha')
      exact ⟨j, fr0, haj, by rw [htab', List.getElem?_modify_ne _ _ hne]; exact hfj, hoj⟩
    no_evict := by
      intro e a' hmem
      have h1 : Event.evict_page e a' ∈ s'.trace.filter is_evict :=
        List.mem_filter.2 ⟨hmem, rfl⟩
      rw [htr] at h1
      have h2 := (List.mem_filter.1 h1).1
      simp only [claimed, List.mem_cons] at h2
      rcases h2 with h2 | h2 | h2 | h2 | h2
      · cases h2
      · cases h2
      · cases h2
      · cases h2
      · exact hd.no_evict e a' h2 }

theorem owner_of_modify_self (s s' : State) (i target : Nat)
    (htab : s'.frame_table = s.frame_table.modify
      (fun fr => { fr with resident_page := some target }) i)
    (hu : unowned s i) : owner_of s' i = some target := by
  obtain ⟨fr, hfr, _⟩ := hu
  simp [owner_of, htab, hfr]

theorem owner_of_modify_ne (s s' : State) (i j target : Nat)
    (htab : s'.frame_table = s.frame_table.modify
      (fun fr => { fr with resident_page := some target }) i)
    (hij : i ≠ j) : owner_of s' j = owner_of s j := by
  simp [owner_of, htab, List.getElem?_modify_ne _ _ hij]

theorem unowned_iff (s : State) (i : Nat) :
    unowned s i ↔ i < s.frame_table.length ∧ owner_of s i = none := by
  unfold unowned owner_of
  constructor
  · rintro ⟨fr, hfr, ho⟩
    exact ⟨(List.getElem?_eq_some_iff.1 hfr).1, by simp [hfr, ho]⟩
  · rintro ⟨hi, ho⟩
    rw [List.getElem?_eq_getElem hi] at ho
    exact ⟨_, List.getElem?_eq_getElem hi, by simpa using ho⟩

theorem each_direct (C : Collab) (cur fuel : Nat) (zeros : Bool) (N base : Nat)
    (hload : ∀ h e a, (C.load_page_into_physical_memory h e a).1 = true) :
    ∀ (es : List Nat) (s : State), Direct N base s → es.length ≤ s.pool.length →
    ∃ idx s', frame_handler_palloc_each C cur fuel zeros es s =
        .ok (List.replicate es.length true, s') ∧
      Direct N base s' ∧
      (∀ i e, owner_of s i = some e → owner_of s' i = some e) ∧
      idx.Nodup ∧ (∀ i ∈ idx, i < N ∧ unowned s i) ∧
      List.Forall₂ (fun e i => owner_of s' i = some e) es idx := by
  intro es
  induction es with
  | nil =>
    intro s hd _
    exact ⟨[], s, rfl, hd, fun _ _ h => h, List.nodup_nil, by simp, List.Forall₂.nil⟩
  | cons e es ih =>
    intro s hd hlen
    obtain ⟨a, rest, hp⟩ : ∃ a rest, s.pool = a :: rest := by
      cases hpool : s.pool with
      | nil => rw [hpool] at hlen; simp at hlen
      | cons a rest => exact ⟨a, rest, rfl⟩
    obtain ⟨i, s1, hcall, hi, hu, htab, hpool1, hd1⟩ :=
      palloc_direct C cur fuel zeros e s N base a rest hd hp (hload _ _ _)
    have hlen1 : es.length ≤ s1.pool.length := by
      rw [hpool1]; rw [hp] at hlen; simpa using hlen
    obtain ⟨idx, s', hrun, hd', hkeep, hnd, hidx, hall⟩ := ih s1 hd1 hlen1
    have hown1 : owner_of s1 i = some e := owner_of_modify_self s s1 i e htab hu
    have hlen_tab : s1.frame_table.length = s.frame_table.length := by
      rw [htab, List.length_modify]
    refine ⟨i :: idx, s', ?_, hd', ?_, ?_, ?_, ?_⟩
    · simp only [frame_handler_palloc_each, hcall, hrun, List.length_cons, List.replicate_succ]
    · intro j x hj
      apply hkeep
      have hij : i ≠ j := by
        intro hij
        subst hij
        rw [((unowned_iff s i).1 hu).2] at hj
        exact absurd hj (by simp)
      rw [owner_of_modify_ne s s1 i j e htab hij]
      exact hj
    · refine List.nodup_cons.2 ⟨?_, hnd⟩
      intro hmem
      have := ((unowned_iff s1 i).1 (hidx i hmem).2).2
      rw [hown1] at this
      exact absurd this (by simp)
    · intro j hj
      rcases List.mem_cons.1 hj with hj | hj
      · subst hj; exact ⟨hi, hu⟩
      · obtain ⟨hjN, hju⟩ := hidx j hj
        refine ⟨hjN, ?_⟩
        have hij : i ≠ j := by
          intro hij
          subst hij
          rw [((unowned_iff s1 i).1 hju).2] at hown1
          exact absurd hown1 (by simp)
        rw [unowned_iff] at hju ⊢
        rw [← hlen_tab, ← owner_of_modify_ne s s1 i j e htab hij]
        exact hju
    · exact List.Forall₂.cons (hkeep i e hown1) hall

theorem init_frame_table_getElem (s : State) (N base i : Nat) (fr : frame)
    (hfit : base + N * 4096 ≤ UINT32)
    (h : (init_frame_table s N base true).frame_table[i]? = some fr) :
    i < N ∧ fr = ⟨none, base + i * 4096, none⟩ := by
  simp only [init_frame_table, if_true, List.getElem?_map] at h
  have hi : i < N := by
    by_contra hni
    rw [List.getElem?_eq_none (by simpa using hni)] at h
    simp at h
  rw [List.getElem?_range hi] at h
  simp only [Option.map_some', Option.some.injEq] at h
  have h1 : base % UINT32 = base := Nat.mod_eq_of_lt (by omega)
  have h2 : (i <<< 12) % UINT32 = i * 4096 := by
    rw [Nat.shiftLeft_eq]
    exact Nat.mod_eq_of_lt (by omega)
  have h3 : (base + i * 4096) % UINT32 = base + i * 4096 := Nat.mod_eq_of_lt (by omega)
  rw [h1, h2, h3] at h
  exact ⟨hi, h.symm⟩

theorem init_frame_table_getElem_lt (s : State) (N base i : Nat)
    (hfit : base + N * 4096 ≤ UINT32) (hi : i < N) :
    (init_frame_table s N base true).frame_table[i]? = some ⟨none, base + i * 4096, none⟩ := by
  have hlen : i < (init_frame_table s N base true).frame_table.length := by
    simp [init_frame_table, hi]
  have h := List.getElem?_eq_getElem hlen
  rw [h, (init_frame_table_getElem s N base i _ hfit h).2]

theorem init_direct (sptes : Nat → spte) (accessed : Nat → Nat → Bool) (pool : List Nat)
    (N base : Nat) (hbase : base ≠ 0) (hfit : base + N * 4096 ≤ UINT32)
    (hpool : pool.Perm ((List.range N).map fun i => base + i * 4096)) :
    Direct N base (init_frame_table (boot sptes accessed pool) N base true) where
  len := by simp [init_frame_table]
  total := rfl
  first := rfl
  base_ne := hbase
  fit := hfit
  lock := rfl
  frames := by
    intro i fr h
    obtain ⟨_, rfl⟩ := init_frame_table_getElem _ N base i fr hfit h
    exact ⟨rfl, rfl⟩
  pool_nodup := by
    show pool.Nodup
    rw [hpool.nodup_iff]
    exact (List.nodup_range N).map (fun i j h => by simpa using h)
  pool_free := by
    intro a ha
    have ha' : a ∈ pool := ha
    rw [hpool.mem_iff, List.mem_map] at ha'
    obtain ⟨i, hi, rfl⟩ := ha'
    exact ⟨i, _, rfl, init_frame_table_getElem_lt _ N base i hfit (List.mem_range.1 hi), rfl⟩
  no_evict := by
    intro e a h
    simp [init_frame_table, boot] at h

/-- The tables that `init_frame_table` lays out have their frames at pairwise distinct
physical addresses. -/
theorem direct_distinct_addrs {N base : Nat} {s : State} (hd : Direct N base s) :
    distinct_addrs s := by
  intro i j fr fr' hi hj h
  rw [(hd.frames i fr hi).1, (hd.frames j fr' hj).1] at h
  omega

/-! ## Claims on `frame_handler_palloc` and `frame_handler_palloc_free` -/

/-- C6 (amended): when the first half of `frame_handler_palloc` has obtained frame `i`, on
either path, and the loader reports success, the call returns `true`; in the state it
returns in, frame `i` is owned by the target entry and the target entry has
`is_loaded = true`.  The call does not write `loc`: the target entry has the `loc` that
the loader left. -/
theorem frame_handler_palloc_success (C : Collab) (cur fuel : Nat) (zeros : Bool)
    (target : Nat) (should_pin : Bool) (s s1 : State) (i a : Nat)
    (hob : frame_handler_palloc_obtain C cur fuel zeros s = .ok (i, a, s1))
    (hload : (C.load_page_into_physical_memory s1.sptes target a).1 = true) :
    ∃ s', frame_handler_palloc C cur fuel zeros target should_pin s = .ok (true, s') ∧
      (s'.frame_table[i]?).map frame.resident_page = some (some target) ∧
      (s'.sptes target).is_loaded = true ∧
      (s'.sptes target).loc =
        ((C.load_page_into_physical_memory s1.sptes target a).2 target).loc := by
  obtain ⟨fr, hfr, hl⟩ := obtain_locked C cur fuel zeros s s1 i a hob
  obtain ⟨s', h1, h2, h3, h4, _⟩ :=
    finish_success C cur zeros target should_pin i a s1 fr hfr hl hload
  exact ⟨s', by simp only [frame_handler_palloc, hob]; exact h1, h2, h3, h4⟩

/-- Counterexample to C6 as stated: on `fresh_table`, with a loader that reports success
and leaves the entries alone, the call returns `true` and the target entry 20 still has
`loc = LOC_DISK`, not `LOC_MEMORY`. -/
theorem frame_handler_palloc_loc_counterexample :
    ∃ s', frame_handler_palloc (plain_collab true) 7 1 false 20 false fresh_table
        = .ok (true, s') ∧
      (s'.sptes 20).loc = page_loc.LOC_DISK ∧ (s'.sptes 20).loc ≠ page_loc.LOC_MEMORY :=
  ⟨_, rfl, rfl, by decide⟩

/-- Witness of C6 (amended): the direct path on `fresh_table`. -/
theorem frame_handler_palloc_success_witness :
    ∃ s', frame_handler_palloc (plain_collab true) 7 1 false 20 false fresh_table
        = .ok (true, s') ∧
      (s'.frame_table[0]?).map frame.resident_page = some (some 20) ∧
      (s'.sptes 20).is_loaded = true ∧
      (s'.sptes 20).loc =
        (((plain_collab true).load_page_into_physical_memory fresh_obtained.sptes 20 4096).2
          20).loc :=
  frame_handler_palloc_success (plain_collab true) 7 1 false 20 false fresh_table
    fresh_obtained 0 4096 rfl rfl

/-- C7, the code at the failing input: on `full_frames` the pool is empty, so the frame
comes from `evict_frame` (frame 0 at 4096, owned by entry 10) and the local
`physical_memory_addr` is `NULL`.  With a loader that fails, the call returns `false` and
leaves the target entry 20 as it was; the
loader and `palloc_free_page` were called with `NULL`, no `palloc_free_page (4096)` was
made, frame 0 is still owned by entry 10, and the pool is still empty, so the next
`palloc_get_page` returns `NULL`. -/
theorem frame_handler_palloc_failed_load_after_eviction :
    ∃ s', frame_handler_palloc (plain_collab false) 7 1 false 20 false full_frames
        = .ok (false, s') ∧
      s'.sptes 20 = full_frames.sptes 20 ∧
      (s'.frame_table[0]?).map frame.resident_page = some (some 10) ∧
      s'.pool = [] ∧ (palloc_get_page s' false).1 = 0 ∧
      Event.evict_page 10 4096 ∈ s'.trace ∧ Event.load_page 20 0 ∈ s'.trace ∧
      Event.palloc_free 0 ∈ s'.trace ∧ Event.palloc_free 4096 ∉ s'.trace :=
  ⟨_, rfl, rfl, rfl, rfl, rfl, by decide, by decide, by decide, by decide⟩

/-- C8: from the state that `init_frame_table (N, base)` leaves (with `base` not `NULL`
and the `N` frames inside the 32-bit address space) and a pool whose free pages are
exactly the pages of the `N` frames, with a loader that always succeeds, `N` consecutive
calls of `frame_handler_palloc` with `should_pin = false` on the entries `es` all return
`true` without a fault; the trace holds no call of the evictor, and the entries own `N`
pairwise distinct frames: entry `k` of `es` is the owner of frame `idx[k]`. -/
theorem frame_handler_palloc_sequential (C : Collab) (cur fuel : Nat) (zeros : Bool)
    (N base : Nat) (sptes : Nat → spte) (accessed : Nat → Nat → Bool) (pool es : List Nat)
    (hbase : base ≠ 0) (hfit : base + N * 4096 ≤ UINT32)
    (hpool : pool.Perm ((List.range N).map fun i => base + i * 4096))
    (hload : ∀ h e a, (C.load_page_into_physical_memory h e a).1 = true)
    (hlen : es.length = N) :
    ∃ idx s', frame_handler_palloc_each C cur fuel zeros es
        (init_frame_table (boot sptes accessed pool) N base true) =
          .ok (List.replicate N true, s') ∧
      (∀ e a, Event.evict_page e a ∉ s'.trace) ∧
      idx.Nodup ∧ (∀ i ∈ idx, i < N) ∧
      List.Forall₂ (fun e i => owner_of s' i = some e) es idx := by
  have hd := init_direct sptes accessed pool N base hbase hfit hpool
  have hpl : es.length ≤
      (init_frame_table (boot sptes accessed pool) N base true).pool.length := by
    show es.length ≤ pool.length
    rw [hpool.length_eq, List.length_map, List.length_range, hlen]
  obtain ⟨idx, s', hrun, hd', _, hnd, hidx, hall⟩ :=
    each_direct C cur fuel zeros N base hload es _ hd hpl
  rw [hlen] at hrun
  exact ⟨idx, s', hrun, hd'.no_evict, hnd, fun i hi => (hidx i hi).1, hall⟩

/-- Witness of C8: two frames at 4096 and 8192, the pool holding both pages, entries 20
and 21. -/
theorem frame_handler_palloc_sequential_witness :
    ∃ idx s', frame_handler_palloc_each (plain_collab true) 7 0 false [20, 21]
        (init_frame_table (boot (fun _ => disk_entry) (fun _ _ => false) [8192, 4096])
          2 4096 true) = .ok (List.replicate 2 true, s') ∧
      (∀ e a, Event.evict_page e a ∉ s'.trace) ∧
      idx.Nodup ∧ (∀ i ∈ idx, i < 2) ∧
      List.Forall₂ (fun e i => owner_of s' i = some e) [20, 21] idx :=
  frame_handler_palloc_sequential (plain_collab true) 7 0 false 2 4096 (fun _ => disk_entry)
    (fun _ _ => false) [8192, 4096] [20, 21] (by decide) (by decide)
    (by decide) (by intro h e a; rfl) rfl

/-- C9: in a state where no lock is held, the pool is empty, every frame is owned and
some owner is unpinned, a call of `frame_handler_palloc` for an entry that owns no frame
takes the eviction path: `evict_frame` returns a frame `i`, the trace gains exactly one
call of the evictor, on the owner and the physical address of frame `i`, and, with an
evictor that marks the entry it is handed and a loader that touches only its own entry,
the evicted entry is not loaded and not `LOC_MEMORY` when the call returns. -/
theorem frame_handler_palloc_full_occupancy (C : Collab) (cur : Nat) (zeros : Bool)
    (target : Nat) (should_pin : Bool) (s : State)
    (hlock : s.frame_evict_lock = none) (hpool : s.pool = [])
    (hlen : s.frame_table.length = s.total_frames) (hsize : s.total_frames < UINT32)
    (hhand : s.clock_hand < s.total_frames)
    (hfree : ∀ fr ∈ s.frame_table, fr.frame_lock = none)
    (howned : ∀ fr ∈ s.frame_table, fr.resident_page ≠ none)
    (hu : ∃ fr ∈ s.frame_table, ∃ e, fr.resident_page = some e ∧ (s.sptes e).is_pinned = false)
    (htarget : ∀ fr ∈ s.frame_table, fr.resident_page ≠ some target)
    (hevict : ∀ h e a, ((C.evict_page_from_physical_memory h e a) e).is_loaded = false ∧
      ((C.evict_page_from_physical_memory h e a) e).loc ≠ page_loc.LOC_MEMORY)
    (hloader : ∀ h e a p, p ≠ e → (C.load_page_into_physical_memory h e a).2 p = h p) :
    ∃ i fr e b s3 s', s.frame_table[i]? = some fr ∧ fr.resident_page = some e ∧
      evict_frame C cur (2 * s.total_frames) (exhausted cur zeros s) = .ok (i, s3) ∧
      frame_handler_palloc C cur (2 * s.total_frames) zeros target should_pin s = .ok (b, s') ∧
      s'.trace.filter is_evict =
        .evict_page e fr.physical_memory_addr :: s.trace.filter is_evict ∧
      (s'.sptes e).is_loaded = false ∧ (s'.sptes e).loc ≠ page_loc.LOC_MEMORY := by
  have hr : Ready cur (exhausted cur zeros s) :=
    { len := hlen, size := hsize, hand := hhand, held := rfl,
      locks := fun fr hfr h => by rw [hfree fr hfr] at h; exact absurd h (by simp),
      owned := fun fr hfr _ => howned fr hfr }
  have hu' : ∃ fr ∈ (exhausted cur zeros s).frame_table, fr.frame_lock = none ∧
      ∃ e, fr.resident_page = some e ∧ ((exhausted cur zeros s).sptes e).is_pinned = false := by
    obtain ⟨fr, hmem, e, he, hp⟩ := hu
    exact ⟨fr, hmem, hfree fr hmem, e, he, hp⟩
  obtain ⟨k, hk, hv, hno⟩ := first_victim hr hu'
  have hrun := evict_frame_run C k _ hr hno hv (2 * s.total_frames) hk
  obtain ⟨fr, e, hfr, _, he, _, _⟩ := victim_now_spec hv
  have hes : evicted_state C cur (skip^[k] (exhausted cur zeros s)) =
      evicted C cur (skip^[k] (exhausted cur zeros s)) fr e := by
    simp only [evicted_state, hfr, he]
  obtain ⟨t, ht, _, _, hev, _⟩ := iterate_trace hr k
  have hfr0 : s.frame_table[(skip^[k] (exhausted cur zeros s)).clock_hand]? = some fr := by
    rw [iterate_frame_table] at hfr; exact hfr
  have hne : e ≠ target := by
    intro h
    exact htarget fr (List.mem_iff_getElem?.2 ⟨_, hfr0⟩) (by rw [he, h])
  have hlocked : (evicted C cur (skip^[k] (exhausted cur zeros s)) fr e).frame_table[
      (skip^[k] (exhausted cur zeros s)).clock_hand]? = some { fr with frame_lock := some cur } := by
    simp only [evicted, chosen, List.getElem?_modify_eq, hfr]
    rfl
  obtain ⟨s', hfin, htr, hsp⟩ := finish_spec C cur zeros target should_pin
    (skip^[k] (exhausted cur zeros s)).clock_hand 0
    (evicted C cur (skip^[k] (exhausted cur zeros s)) fr e) _ hlocked rfl
  refine ⟨_, fr, e, (C.load_page_into_physical_memory
    (evicted C cur (skip^[k] (exhausted cur zeros s)) fr e).sptes target 0).1, _, s',
    hfr0, he, hrun, ?_, ?_, ?_⟩
  · simp only [frame_handler_palloc, obtain_exhausted C cur _ zeros s hlock hpool, hrun, hes]
    exact hfin
  · rw [htr]
    simp only [evicted, chosen, List.filter_cons, is_evict]
    rw [ht, List.filter_append, filter_is_evict_nil t hev]
    simp [exhausted, List.filter_cons, is_evict]
  · rw [hsp e hne, hloader _ _ _ _ hne]
    exact hevict _ _ _

/-- Witness of C9: `full_frames`, target entry 20, a loader that succeeds. -/
theorem frame_handler_palloc_full_occupancy_witness :
    ∃ i fr e b s3 s', full_frames.frame_table[i]? = some fr ∧ fr.resident_page = some e ∧
      evict_frame (plain_collab true) 7 (2 * full_frames.total_frames)
        (exhausted 7 false full_frames) = .ok (i, s3) ∧
      frame_handler_palloc (plain_collab true) 7 (2 * full_frames.total_frames) false 20 false
        full_frames = .ok (b, s') ∧
      s'.trace.filter is_evict =
        .evict_page e fr.physical_memory_addr :: full_frames.trace.filter is_evict ∧
      (s'.sptes e).is_loaded = false ∧ (s'.sptes e).loc ≠ page_loc.LOC_MEMORY :=
  frame_handler_palloc_full_occupancy (plain_collab true) 7 false 20 false full_frames
    rfl rfl rfl (by decide) (by decide) (by simp [full_frames]) (by simp [full_frames])
    ⟨⟨some 10, 4096, none⟩, by simp [full_frames], 10, rfl, rfl⟩ (by simp [full_frames])
    (by intro h e a; simp [plain_collab, marking_evictor])
    (by intro h e a p _; rfl)

/-- C10, the code at the failing input: `frame_handler_palloc_free (4096, entry 10)` on
`full_frames` returns with frame 0 still owned by entry 10, its lock held by the caller
(thread 7), the pool unchanged and no call of `palloc_free_page`. -/
theorem frame_handler_palloc_free_incomplete :
    ∃ s', frame_handler_palloc_free 7 4096 10 full_frames = .ok s' ∧
      (s'.frame_table[0]?).map frame.resident_page = some (some 10) ∧
      (s'.frame_table[0]?).map frame.frame_lock = some (some 7) ∧
      s'.pool = full_frames.pool ∧ s'.trace = [Event.acquire_frame 0] :=
  ⟨_, rfl, rfl, rfl, rfl, rfl⟩

/-! ## Claims on `init_frame_table` and `get_frame_index` -/

/-- C11: when `malloc` returns storage, after `init_frame_table (N, base)` the table has
`N` descriptors, descriptor `i < N` has no owner, a free lock and the physical address
`base + i * 4096` in `uint32_t` arithmetic, `total_frames` is `N` and `first_frame` is
`base`. -/
theorem init_frame_table_layout (s : State) (N base i : Nat) (hi : i < N) :
    (init_frame_table s N base true).frame_table.length = N ∧
      (init_frame_table s N base true).frame_table[i]? =
        some ⟨none, (base + i * 4096) % UINT32, none⟩ ∧
      (init_frame_table s N base true).total_frames = N ∧
      (init_frame_table s N base true).first_frame = base := by
  refine ⟨by simp [init_frame_table], ?_, rfl, rfl⟩
  simp only [init_frame_table, if_true, List.getElem?_map, List.getElem?_range hi,
    Option.map_some', Nat.shiftLeft_eq]
  rw [← Nat.add_mod]

/-- Witness of C11: four descriptors from a base near the top of the address space; the
address of descriptor 3 wraps. -/
theorem init_frame_table_layout_witness :
    (init_frame_table (boot (fun _ => disk_entry) (fun _ _ => false) []) 4 4294959104
        true).frame_table.length = 4 ∧
      (init_frame_table (boot (fun _ => disk_entry) (fun _ _ => false) []) 4 4294959104
        true).frame_table[3]? = some ⟨none, (4294959104 + 3 * 4096) % UINT32, none⟩ ∧
      (init_frame_table (boot (fun _ => disk_entry) (fun _ _ => false) []) 4 4294959104
        true).total_frames = 4 ∧
      (init_frame_table (boot (fun _ => disk_entry) (fun _ _ => false) []) 4 4294959104
        true).first_frame = 4294959104 :=
  init_frame_table_layout (boot (fun _ => disk_entry) (fun _ _ => false) []) 4 4294959104 3
    (by decide)

/-- C12: with `N ≥ 1`, a base that is not `NULL` and `base + N * 4096 ≤ 2 ^ 32`, for every
`i < N` the table that `init_frame_table (N, base)` leaves has a descriptor `i`, and
`get_frame_index` of the physical address stored in it returns `i`. -/
theorem get_frame_index_init (s : State) (N base i : Nat) (hbase : base ≠ 0)
    (hfit : base + N * 4096 ≤ UINT32) (hi : i < N) :
    ∃ fr, (init_frame_table s N base true).frame_table[i]? = some fr ∧
      fr.physical_memory_addr = base + i * 4096 ∧
      get_frame_index (init_frame_table s N base true) fr.physical_memory_addr = .ok i :=
  ⟨⟨none, base + i * 4096, none⟩, init_frame_table_getElem_lt s N base i hfit hi, rfl,
    get_frame_index_of_frame _ N base i rfl rfl hbase hfit hi⟩

/-- Witness of C12: descriptor 1 of `fresh_table`. -/
theorem get_frame_index_init_witness :
    ∃ fr, (init_frame_table (boot (fun _ => disk_entry) (fun _ _ => false) [4096, 8192]) 2
        4096 true).frame_table[1]? = some fr ∧
      fr.physical_memory_addr = 4096 + 1 * 4096 ∧
      get_frame_index (init_frame_table (boot (fun _ => disk_entry) (fun _ _ => false)
        [4096, 8192]) 2 4096 true) fr.physical_memory_addr = .ok 1 :=
  get_frame_index_init (boot (fun _ => disk_entry) (fun _ _ => false) [4096, 8192]) 2 4096 1
    (by decide) (by decide) (by decide)

/-- C13: for 32-bit values of the address and of `first_frame`, `get_frame_index` fails,
with an assertion, exactly when `first_frame` is `NULL` or the address is outside
`[first_frame, first_frame + total_frames * 4096)`; otherwise it returns
`(kaddr - first_frame) >> 12`, which is below `total_frames`. -/
theorem get_frame_index_spec (s : State) (kaddr : Nat) (hk : kaddr < UINT32)
    (hb : s.first_frame < UINT32) :
    (get_frame_index s kaddr = .error .assertion ↔
      (s.first_frame = 0 ∨
        ¬ (s.first_frame ≤ kaddr ∧ kaddr < s.first_frame + s.total_frames * 4096))) ∧
    (get_frame_index s kaddr ≠ .error .assertion →
      get_frame_index s kaddr = .ok ((kaddr - s.first_frame) >>> 12) ∧
      (kaddr - s.first_frame) >>> 12 < s.total_frames) := by
  have h1 : s.first_frame % UINT32 = s.first_frame := Nat.mod_eq_of_lt hb
  have h2 : kaddr % UINT32 = kaddr := Nat.mod_eq_of_lt hk
  have h3 : (kaddr - s.first_frame) % UINT32 = kaddr - s.first_frame :=
    Nat.mod_eq_of_lt (by omega)
  have h4 : (kaddr - s.first_frame) >>> 12 = (kaddr - s.first_frame) / 4096 := by
    rw [Nat.shiftRight_eq_div_pow]
  have h5 : (kaddr - s.first_frame) / 4096 < s.total_frames ↔
      kaddr - s.first_frame < s.total_frames * 4096 :=
    Nat.div_lt_iff_lt_mul (by decide)
  unfold get_frame_index
  simp only [h1, h2, h3, h4]
  clear h1 h2 h3 h4
  by_cases hz : s.first_frame = 0
  · simp [hz]
  · by_cases hle : s.first_frame ≤ kaddr
    · by_cases hlt : (kaddr - s.first_frame) / 4096 < s.total_frames
      · have := h5.1 hlt
        simp only [hz, hle, hlt, if_true, if_false, not_true_eq_false, false_or]
        refine ⟨⟨fun h => by simp at h, fun h => absurd ⟨trivial, by omega⟩ h⟩, fun _ => ⟨trivial, trivial⟩⟩
      · have : ¬ kaddr - s.first_frame < s.total_frames * 4096 := fun h => hlt (h5.2 h)
        simp only [hz, hle, hlt, if_true, if_false, not_true_eq_false, false_or]
        refine ⟨⟨fun _ h => this (by have := h.2; omega), fun _ => trivial⟩, fun h => absurd rfl h⟩
    · simp [hz, hle]

/-- Witness of C13: the address 8200 inside the second frame of `full_frames`. -/
theorem get_frame_index_spec_witness :
    (get_frame_index full_frames 8200 = .error .assertion ↔
      (full_frames.first_frame = 0 ∨
        ¬ (full_frames.first_frame ≤ 8200 ∧
          8200 < full_frames.first_frame + full_frames.total_frames * 4096))) ∧
    (get_frame_index full_frames 8200 ≠ .error .assertion →
      get_frame_index full_frames 8200 = .ok ((8200 - full_frames.first_frame) >>> 12) ∧
      (8200 - full_frames.first_frame) >>> 12 < full_frames.total_frames) :=
  get_frame_index_spec full_frames 8200 (by decide) (by decide)

/-! ## Invariants of the loop of `evict_frame` and the two halves of `frame_handler_palloc` -/

theorem iter_again_cases (cur : Nat) (s s' : State)
    (h : evict_frame_iter cur s = .ok (.again s')) :
    s.frame_evict_lock = some cur ∧
    ∃ fr, s.frame_table[s.clock_hand]? = some fr ∧
      ((∃ o, fr.frame_lock = some o ∧ o ≠ cur ∧ s' = passed s) ∨
       (∃ e, fr.frame_lock = none ∧ fr.resident_page = some e ∧ s' = skipped s fr e)) := by
  rw [evict_frame_iter_eq] at h
  unfold evict_frame_iter_cases at h
  cases hfr : s.frame_table[s.clock_hand]? with
  | none => simp [hfr] at h
  | some fr =>
    simp only [hfr] at h
    cases hl : fr.frame_lock with
    | some o =>
      simp only [hl] at h
      by_cases hc : o = cur
      · simp [hc] at h
      · by_cases hg : s.frame_evict_lock = some cur
        · simp only [hc, hg, if_true, if_false, Except.ok.injEq, Iter.again.injEq] at h
          exact ⟨hg, fr, rfl, Or.inl ⟨o, hl, hc, h.symm⟩⟩
        · simp [hc, hg] at h
    | none =>
      simp only [hl] at h
      by_cases hg : s.frame_evict_lock = some cur
      · cases he : fr.resident_page with
        | none => simp [hg, he] at h
        | some e =>
          simp only [hg, he, if_true] at h
          split at h
          · simp only [Except.ok.injEq, Iter.again.injEq] at h
            exact ⟨hg, fr, rfl, Or.inr ⟨e, hl, he, h.symm⟩⟩
          · simp at h
      · simp [hg] at h

/-- An invariant of the two ways round the loop holds in the state where the last pass
starts. -/
theorem loop_invariant (cur : Nat) (P : State → Prop)
    (hpass : ∀ s fr o, P s → s.frame_evict_lock = some cur →
      s.frame_table[s.clock_hand]? = some fr → fr.frame_lock = some o → o ≠ cur →
      P (passed s))
    (hskip : ∀ s fr e, P s → s.frame_evict_lock = some cur →
      s.frame_table[s.clock_hand]? = some fr → fr.frame_lock = none →
      fr.resident_page = some e → P (skipped s fr e)) :
    ∀ (fuel : Nat) (s m : State) (i : Nat), P s →
    evict_frame_loop cur fuel s = .ok (i, m) →
    ∃ p fr e, P p ∧ p.frame_table[p.clock_hand]? = some fr ∧ fr.frame_lock = none ∧
      fr.resident_page = some e ∧ p.frame_evict_lock = some cur ∧
      (p.sptes e).is_pinned = false ∧
      p.accessed (p.sptes e).owner_thread.pagedir fr.physical_memory_addr = false ∧
      i = p.clock_hand ∧ m = chosen cur p fr e := by
  intro fuel
  induction fuel with
  | zero => intro s m i _ h; simp [evict_frame_loop] at h
  | succ n ih =>
    intro s m i hP h
    unfold evict_frame_loop at h
    cases hit : evict_frame_iter cur s with
    | error f => simp [hit] at h
    | ok r =>
      cases r with
      | again s1 =>
        simp only [hit] at h
        obtain ⟨hg, fr, hfr, hcase⟩ := iter_again_cases cur s s1 hit
        refine ih s1 m i ?_ h
        rcases hcase with ⟨o, hl, ho, rfl⟩ | ⟨e, hl, he, rfl⟩
        · exact hpass s fr o hP hg hfr hl ho
        · exact hskip s fr e hP hg hfr hl he
      | found j s1 =>
        simp only [hit, Except.ok.injEq, Prod.mk.injEq] at h
        obtain ⟨fr, e, h1, h2, h3, h4, h5, h6, h7, h8⟩ := iter_found_spec cur s s1 j hit
        exact ⟨s, fr, e, hP, h1, h2, h3, h4, h5, h6, by rw [← h.1, h7], by rw [← h.2, h8]⟩

/-- An invariant of the two ways round the loop holds after any number of passes that
went round again. -/
theorem passes_invariant (cur : Nat) (P : State → Prop)
    (hpass : ∀ s fr o, P s → s.frame_evict_lock = some cur →
      s.frame_table[s.clock_hand]? = some fr → fr.frame_lock = some o → o ≠ cur →
      P (passed s))
    (hskip : ∀ s fr e, P s → s.frame_evict_lock = some cur →
      s.frame_table[s.clock_hand]? = some fr → fr.frame_lock = none →
      fr.resident_page = some e → P (skipped s fr e)) :
    ∀ (k : Nat) (s s' : State), P s → evict_frame_passes cur k s = some s' → P s' := by
  intro k
  induction k with
  | zero =>
    intro s s' hP h
    simp only [evict_frame_passes, Option.some.injEq] at h
    exact h ▸ hP
  | succ n ih =>
    intro s s' hP h
    unfold evict_frame_passes at h
    cases hit : evict_frame_iter cur s with
    | error f => simp [hit] at h
    | ok r =>
      cases r with
      | found j s1 => simp [hit] at h
      | again s1 =>
        simp only [hit] at h
        obtain ⟨hg, fr, hfr, hcase⟩ := iter_again_cases cur s s1 hit
        refine ih s1 s' ?_ h
        rcases hcase with ⟨o, hl, ho, rfl⟩ | ⟨e, hl, he, rfl⟩
        · exact hpass s fr o hP hg hfr hl ho
        · exact hskip s fr e hP hg hfr hl he

theorem next_hand_lt (s : State) (hs : s.total_frames < UINT32)
    (hh : s.clock_hand < s.total_frames) : next_hand s < s.total_frames := by
  rw [next_hand_eq s hs hh]
  exact Nat.mod_lt _ (by omega)

theorem advance_hand (cur : Nat) (s : State) (hs : s.total_frames < UINT32)
    (hh : s.clock_hand < s.total_frames) (hg : s.frame_evict_lock = some cur) :
    ∃ s', advance_clock_hand cur s = .ok s' ∧
      s'.clock_hand = (s.clock_hand + 1) % s.total_frames ∧
      s'.total_frames = s.total_frames := by
  refine ⟨{ s with clock_hand := next_hand s, trace := .advance :: s.trace }, ?_, ?_, rfl⟩
  · simp only [advance_clock_hand, lock_held_by_current_thread, hg, beq_self_eq_true,
      if_true, next_hand]
  · exact next_hand_eq s hs hh

theorem advance_in_range (N cur : Nat) (s s' : State) (hN : N < UINT32)
    (h : hand_in_range N s) (hadv : advance_clock_hand cur s = .ok s') :
    hand_in_range N s' := by
  unfold advance_clock_hand at hadv
  split at hadv
  · simp only [Except.ok.injEq] at hadv
    subst hadv
    refine ⟨h.1, ?_⟩
    have := next_hand_lt s (by rw [h.1]; exact hN) (by rw [h.1]; exact h.2)
    rw [h.1] at this
    exact this
  · simp at hadv

/-- What `evict_frame` returns: an invariant of the two ways round the loop holds in the
state `p` where the last pass starts, the frame at the hand of `p` is the victim, and the
state returned is `evicted C cur p fr e`. -/
theorem evict_frame_invariant (C : Collab) (cur : Nat) (P : State → Prop)
    (hpass : ∀ s fr o, P s → s.frame_evict_lock = some cur →
      s.frame_table[s.clock_hand]? = some fr → fr.frame_lock = some o → o ≠ cur →
      P (passed s))
    (hskip : ∀ s fr e, P s → s.frame_evict_lock = some cur →
      s.frame_table[s.clock_hand]? = some fr → fr.frame_lock = none →
      fr.resident_page = some e → P (skipped s fr e))
    (fuel : Nat) (s s' : State) (i : Nat) (hP : P s)
    (hev : evict_frame C cur fuel s = .ok (i, s')) :
    s.frame_evict_lock = some cur ∧
    ∃ p fr e, P p ∧ p.frame_table[p.clock_hand]? = some fr ∧ fr.frame_lock = none ∧
      fr.resident_page = some e ∧ p.frame_evict_lock = some cur ∧
      (p.sptes e).is_pinned = false ∧
      p.accessed (p.sptes e).owner_thread.pagedir fr.physical_memory_addr = false ∧
      i = p.clock_hand ∧ s' = evicted C cur p fr e := by
  have hg : s.frame_evict_lock = some cur := by
    unfold evict_frame at hev
    split at hev
    · rename_i hheld
      simpa [lock_held_by_current_thread] using hheld
    · simp at hev
  refine ⟨hg, ?_⟩
  cases hl : evict_frame_loop cur fuel s with
  | error f =>
    simp only [evict_frame, hl] at hev
    split at hev <;> simp at hev
  | ok r =>
    obtain ⟨j, m⟩ := r
    obtain ⟨p, fr, e, hPp, h1, h2, h3, h4, h5, h6, h7, h8⟩ :=
      loop_invariant cur P hpass hskip fuel s m j hP hl
    rw [h7, h8] at hl
    have := evict_frame_of_loop C cur fuel s p fr e hg h1 h3 hl
    rw [this] at hev
    simp only [Except.ok.injEq, Prod.mk.injEq] at hev
    exact ⟨p, fr, e, hPp, h1, h2, h3, h4, h5, h6, hev.1.symm, hev.2.symm⟩

theorem hand_in_range_next (N : Nat) (s s' : State) (hN : N < UINT32)
    (h : hand_in_range N s) (ht : s'.total_frames = s.total_frames)
    (hh : s'.clock_hand = next_hand s) : hand_in_range N s' := by
  have := next_hand_lt s (by rw [h.1]; exact hN) (by rw [h.1]; exact h.2)
  rw [h.1] at this
  exact ⟨by rw [ht]; exact h.1, by rw [hh]; exact this⟩

theorem evict_frame_in_range (C : Collab) (N cur fuel : Nat) (s s' : State) (i : Nat)
    (hN : N < UINT32) (h : hand_in_range N s) (hev : evict_frame C cur fuel s = .ok (i, s')) :
    hand_in_range N s' := by
  obtain ⟨_, p, fr, e, hP, _, _, _, _, _, _, _, hs'⟩ :=
    evict_frame_invariant C cur (hand_in_range N)
      (fun s fr o hP _ _ _ _ => hand_in_range_next N s _ hN hP rfl rfl)
      (fun s fr e hP _ _ _ _ => hand_in_range_next N s _ hN hP rfl rfl)
      fuel s s' i h hev
  rw [hs']
  exact hP

theorem asked_fields (cur : Nat) (zeros : Bool) (s : State) :
    (asked cur zeros s).2.frame_table = s.frame_table ∧
    (asked cur zeros s).2.total_frames = s.total_frames ∧
    (asked cur zeros s).2.first_frame = s.first_frame ∧
    (asked cur zeros s).2.frame_evict_lock = some cur ∧
    (asked cur zeros s).2.clock_hand = s.clock_hand ∧
    (asked cur zeros s).2.sptes = s.sptes ∧
    (asked cur zeros s).2.accessed = s.accessed ∧
    (asked cur zeros s).2.trace =
      .palloc_get zeros (asked cur zeros s).1 :: .acquire_evict_lock :: s.trace := by
  unfold asked palloc_get_page
  cases s.pool <;> simp [State.log]

theorem obtain_cases (C : Collab) (cur fuel : Nat) (zeros : Bool) (s s1 : State) (i a : Nat)
    (h : frame_handler_palloc_obtain C cur fuel zeros s = .ok (i, a, s1)) :
    s.frame_evict_lock = none ∧ a = (asked cur zeros s).1 ∧
    ((a ≠ 0 ∧ get_frame_index (asked cur zeros s).2 a = .ok i ∧
        (∃ fr, s.frame_table[i]? = some fr ∧ fr.frame_lock = none ∧
          fr.resident_page = none) ∧
        s1 = claimed_from cur i (asked cur zeros s).2) ∨
     (a = 0 ∧ evict_frame C cur fuel (asked cur zeros s).2 = .ok (i, s1))) := by
  unfold frame_handler_palloc_obtain at h
  cases hg : s.frame_evict_lock with
  | some o =>
    by_cases ho : o = cur <;> simp [hg, lock_acquire, ho] at h
  | none =>
    simp only [hg, lock_acquire] at h
    have hft := (asked_fields cur zeros s).1
    unfold asked at hft ⊢
    generalize palloc_get_page
      { s with frame_evict_lock := some cur, trace := .acquire_evict_lock :: s.trace }
      zeros = q at h hft ⊢
    obtain ⟨a', s2⟩ := q
    simp only at h hft ⊢
    by_cases ha : a' = 0
    · simp only [ha, ne_eq, not_true_eq_false, if_false] at h
      cases he : evict_frame C cur fuel s2 with
      | error f => simp [he] at h
      | ok r =>
        obtain ⟨j, s3⟩ := r
        simp only [he, Except.ok.injEq, Prod.mk.injEq] at h
        obtain ⟨h1, h2, h3⟩ := h
        subst h1; subst h3
        exact ⟨trivial, by rw [← h2, ha], Or.inr ⟨h2.symm, rfl⟩⟩
    · simp only [ne_eq, ha, not_false_eq_true, if_true] at h
      cases hgi : get_frame_index s2 a' with
      | error f => simp [hgi] at h
      | ok j =>
        simp only [hgi] at h
        cases hfr : s2.frame_table[j]? with
        | none => simp [hfr] at h
        | some fr =>
          simp only [hfr] at h
          cases hl : fr.frame_lock with
          | some o =>
            by_cases ho : o = cur <;> simp [hl, lock_acquire, ho] at h
          | none =>
            simp only [hl, lock_acquire, State.log, State.set_frame_lock] at h
            cases hrel : lock_release s2.frame_evict_lock cur with
            | error f => simp [hrel] at h
            | ok g' =>
              have hg' : g' = none := by
                unfold lock_release at hrel
                split at hrel
                · simpa using hrel.symm
                · simp at hrel
              simp only [hrel] at h
              split at h
              · rename_i hown
                simp only [Except.ok.injEq, Prod.mk.injEq] at h
                obtain ⟨h1, h2, h3⟩ := h
                subst h1; subst h2
                refine ⟨trivial, rfl, Or.inl ⟨ha, hgi, ⟨fr, by rw [← hft]; exact hfr, hl, hown⟩, ?_⟩⟩
                rw [← h3, hg']
                rfl
              · simp at h

/-- What the second half of `frame_handler_palloc` does to the globals, the locks and the
trace, for a frame `i` whose lock the caller holds. -/
theorem finish_effect (C : Collab) (cur : Nat) (zeros : Bool) (target : Nat)
    (should_pin : Bool) (i a : Nat) (m : State) (fr : frame)
    (hfr : m.frame_table[i]? = some fr) (hl : fr.frame_lock = some cur) :
    ∃ s', frame_handler_palloc_finish C cur zeros target should_pin i a m =
        .ok ((C.load_page_into_physical_memory m.sptes target a).1, s') ∧
      s'.clock_hand = m.clock_hand ∧ s'.total_frames = m.total_frames ∧
      s'.first_frame = m.first_frame ∧ s'.frame_evict_lock = m.frame_evict_lock ∧
      s'.accessed = m.accessed ∧
      s'.trace = finish_events zeros target should_pin i a fr.physical_memory_addr
        (C.load_page_into_physical_memory m.sptes target a).1 ++ m.trace ∧
      (∀ j : Nat, (s'.frame_table[j]?).map frame.frame_lock =
        if i = j then some (if should_pin then some cur else none)
        else (m.frame_table[j]?).map frame.frame_lock) ∧
      (∀ j : Nat, (s'.frame_table[j]?).map frame.physical_memory_addr =
        (m.frame_table[j]?).map frame.physical_memory_addr) := by
  unfold frame_handler_palloc_finish
  simp only [hfr]
  have hfree : ∀ s0 : State, (palloc_free_page s0 a).frame_table = s0.frame_table ∧
      (palloc_free_page s0 a).clock_hand = s0.clock_hand ∧
      (palloc_free_page s0 a).total_frames = s0.total_frames ∧
      (palloc_free_page s0 a).first_frame = s0.first_frame ∧
      (palloc_free_page s0 a).frame_evict_lock = s0.frame_evict_lock ∧
      (palloc_free_page s0 a).accessed = s0.accessed ∧
      (palloc_free_page s0 a).trace = .palloc_free a :: s0.trace := by
    intro s0
    unfold palloc_free_page
    split <;> exact ⟨rfl, rfl, rfl, rfl, rfl, rfl, rfl⟩
  have hmod : ∀ (f : frame → frame) (j : Nat),
      (∀ x, (f x).physical_memory_addr = x.physical_memory_addr) →
      ((m.frame_table.modify f i)[j]?).map frame.physical_memory_addr =
        (m.frame_table[j]?).map frame.physical_memory_addr := by
    intro f j hf
    rw [List.getElem?_modify]
    cases m.frame_table[j]? with
    | none => rfl
    | some x => by_cases hij : i = j <;> simp [hij, hf]
  have hlock : ∀ (f : frame → frame) (l : Option Nat) (j : Nat),
      (∀ x, (f x).frame_lock = l) →
      ((m.frame_table.modify f i)[j]?).map frame.frame_lock =
        if i = j then some l else (m.frame_table[j]?).map frame.frame_lock := by
    intro f l j hf
    rw [List.getElem?_modify]
    by_cases hij : i = j
    · subst hij; simp [hfr, hf]
    · cases m.frame_table[j]? <;> simp [hij]
  have hkeep : ∀ (f : frame → frame) (j : Nat),
      (∀ x, (f x).frame_lock = x.frame_lock) →
      ((m.frame_table.modify f i)[j]?).map frame.frame_lock =
        if i = j then some (some cur) else (m.frame_table[j]?).map frame.frame_lock := by
    intro f j hf
    rw [List.getElem?_modify]
    by_cases hij : i = j
    · subst hij; simp [hfr, hf, hl]
    · cases m.frame_table[j]? <;> simp [hij]
  cases hload : (C.load_page_into_physical_memory m.sptes target a).1 <;>
  cases zeros <;> cases should_pin <;>
    simp only [State.log, hload, if_true, not_true_eq_false, if_false, hl, lock_release,
      Bool.true_eq_false, Bool.false_eq_true, not_false_eq_true] <;>
    refine ⟨_, rfl, ?_, ?_, ?_, ?_, ?_, ?_, ?_, ?_⟩ <;>
    simp only [State.set_resident_page, State.set_frame_lock, State.log, (hfree _).1,
      (hfree _).2.1, (hfree _).2.2.1, (hfree _).2.2.2.1, (hfree _).2.2.2.2.1,
      (hfree _).2.2.2.2.2.1, (hfree _).2.2.2.2.2.2, finish_events, List.modify_modify_eq,
      if_true, if_false, Bool.false_eq_true, List.nil_append, List.cons_append,
      List.append_nil, List.singleton_append] <;>
    first
    | rfl
    | (intro j; exact hmod _ j (fun _ => rfl))
    | (intro j; exact hlock _ _ j (fun _ => rfl))
    | (intro j; exact hkeep _ j (fun _ => rfl))
    | (intro j
       by_cases hij : i = j
       · subst hij; simp [hfr, hl]
       · simp [hij])

theorem palloc_halves (C : Collab) (cur fuel : Nat) (zeros : Bool) (target : Nat)
    (should_pin : Bool) (s s' : State) (b : Bool)
    (h : frame_handler_palloc C cur fuel zeros target should_pin s = .ok (b, s')) :
    ∃ i a s1 fr, frame_handler_palloc_obtain C cur fuel zeros s = .ok (i, a, s1) ∧
      s1.frame_table[i]? = some fr ∧ fr.frame_lock = some cur ∧
      frame_handler_palloc_finish C cur zeros target should_pin i a s1 = .ok (b, s') := by
  unfold frame_handler_palloc at h
  cases hob : frame_handler_palloc_obtain C cur fuel zeros s with
  | error f => simp [hob] at h
  | ok r =>
    obtain ⟨i, a, s1⟩ := r
    simp only [hob] at h
    obtain ⟨fr, hfr, hl⟩ := obtain_locked C cur fuel zeros s s1 i a hob
    exact ⟨i, a, s1, fr, rfl, hfr, hl, h⟩

theorem palloc_in_range (C : Collab) (N cur fuel : Nat) (zeros : Bool) (target : Nat)
    (should_pin : Bool) (s s' : State) (b : Bool) (hN : N < UINT32)
    (h : hand_in_range N s)
    (hp : frame_handler_palloc C cur fuel zeros target should_pin s = .ok (b, s')) :
    hand_in_range N s' := by
  obtain ⟨i, a, s1, fr, hob, hfr, hl, hfin⟩ :=
    palloc_halves C cur fuel zeros target should_pin s s' b hp
  obtain ⟨t, hfin', hhand, htot, _⟩ :=
    finish_effect C cur zeros target should_pin i a s1 fr hfr hl
  rw [hfin'] at hfin
  simp only [Except.ok.injEq, Prod.mk.injEq] at hfin
  obtain ⟨_, rfl⟩ := hfin
  have hask : hand_in_range N (asked cur zeros s).2 := by
    obtain ⟨_, h2, _, _, h5, _⟩ := asked_fields cur zeros s
    exact ⟨by rw [h2]; exact h.1, by rw [h5]; exact h.2⟩
  have h1 : hand_in_range N s1 := by
    obtain ⟨_, _, hcase⟩ := obtain_cases C cur fuel zeros s s1 i a hob
    rcases hcase with ⟨_, _, _, rfl⟩ | ⟨_, hev⟩
    · exact hask
    · exact evict_frame_in_range C N cur fuel _ s1 i hN hask hev
  exact ⟨by rw [htot]; exact h1.1, by rw [hhand]; exact h1.2⟩

theorem reachable_in_range (C : Collab) (N base : Nat) (r : State) (hN : 1 ≤ N)
    (hsize : N < UINT32) (hr : Reachable C N base r) : hand_in_range N r := by
  induction hr with
  | init sptes accessed pool malloc_ok => cases malloc_ok <;> exact ⟨rfl, hN⟩
  | other s s' _ hh ht ih => exact ⟨by rw [ht]; exact ih.1, by rw [hh]; exact ih.2⟩
  | advance cur s s' _ hadv ih => exact advance_in_range N cur s s' hsize ih hadv
  | evict cur fuel s s' i _ hev ih => exact evict_frame_in_range C N cur fuel s s' i hsize ih hev
  | palloc cur fuel zeros target should_pin s s' b _ hp ih =>
    exact palloc_in_range C N cur fuel zeros target should_pin s s' b hsize ih hp

theorem obtain_evict_lock (C : Collab) (cur fuel : Nat) (zeros : Bool) (s s1 : State)
    (i a : Nat) (h : frame_handler_palloc_obtain C cur fuel zeros s = .ok (i, a, s1)) :
    s1.frame_evict_lock = none := by
  obtain ⟨_, _, hcase⟩ := obtain_cases C cur fuel zeros s s1 i a h
  rcases hcase with ⟨_, _, _, rfl⟩ | ⟨_, hev⟩
  · rfl
  · obtain ⟨_, p, fr, e, _, _, _, _, _, _, _, _, hs1⟩ :=
      evict_frame_invariant C cur (fun _ => True) (fun _ _ _ _ _ _ _ _ => trivial)
        (fun _ _ _ _ _ _ _ _ => trivial) fuel _ s1 i trivial hev
    rw [hs1]
    rfl

/-! ## The state in which a call stops -/

/-- A call of `advance_clock_hand` returns what `advance_clock_hand_stopped` returns. -/
theorem advance_clock_hand_stopped_returned (cur : Nat) (s : State) :
    advance_clock_hand cur s =
      (advance_clock_hand_stopped cur s).returned.map Prod.snd := by
  unfold advance_clock_hand advance_clock_hand_stopped
  split <;> rfl

/-- The two ways in which `advance_clock_hand` stops. -/
theorem advance_clock_hand_stopped_cases (cur : Nat) (s : State) :
    (∃ s', advance_clock_hand cur s = .ok s' ∧
        advance_clock_hand_stopped cur s = ⟨s', .ok ()⟩) ∨
      (advance_clock_hand cur s = .error .assertion ∧
        advance_clock_hand_stopped cur s = ⟨s, .error .assertion⟩) := by
  unfold advance_clock_hand advance_clock_hand_stopped
  split
  · exact .inl ⟨_, rfl, rfl⟩
  · exact .inr ⟨rfl, rfl⟩

/-- A pass of the loop ends as `evict_frame_iter_stopped` says. -/
theorem evict_frame_iter_stopped_returned (cur : Nat) (s : State) :
    evict_frame_iter cur s =
      (evict_frame_iter_stopped cur s).returned.map fun r =>
        match r.1 with
        | none => .again r.2
        | some i => .found i r.2 := by
  unfold evict_frame_iter evict_frame_iter_stopped
  cases s.frame_table[s.clock_hand]? with
  | none => rfl
  | some fr =>
    simp only
    cases lock_try_acquire fr.frame_lock cur with
    | error f => rfl
    | ok p =>
      obtain ⟨b, l⟩ := p
      cases b with
      | false =>
        simp only
        rcases advance_clock_hand_stopped_cases cur
          (s.log (.try_acquire_frame s.clock_hand false)) with ⟨s', h1, h2⟩ | ⟨h1, h2⟩ <;>
          rw [h1, h2] <;> rfl
      | true =>
        simp only
        cases lock_release
          ((s.set_frame_lock s.clock_hand l).log
            (.try_acquire_frame s.clock_hand true)).frame_evict_lock cur with
        | error f => rfl
        | ok g =>
          simp only
          cases fr.resident_page with
          | none => rfl
          | some e =>
            simp only
            split
            · cases lock_release l cur with
              | error f => rfl
              | ok l' =>
                simp only
                split
                · rfl
                · next g' h =>
                  split
                  · next h1 =>
                    rcases advance_clock_hand_stopped_cases cur _ with ⟨s', h3, h2⟩ | ⟨h3, h2⟩
                    · rw [h3] at h1; cases h1
                    · rw [h2]; rw [h3] at h1; cases h1; rfl
                  · next s' h1 =>
                    rcases advance_clock_hand_stopped_cases cur _ with ⟨s2, h3, h2⟩ | ⟨h3, h2⟩
                    · rw [h2]; rw [h3] at h1; cases h1; rfl
                    · rw [h3] at h1; cases h1
            · rfl

/-- The loop returns what `evict_frame_loop_stopped` returns. -/
theorem evict_frame_loop_stopped_returned (cur fuel : Nat) (s : State) :
    evict_frame_loop cur fuel s =
      (evict_frame_loop_stopped cur fuel s).returned := by
  induction fuel generalizing s with
  | zero => rfl
  | succ n ih =>
    unfold evict_frame_loop evict_frame_loop_stopped
    rw [evict_frame_iter_stopped_returned]
    rcases evict_frame_iter_stopped cur s with ⟨s', r⟩
    cases r with
    | error f => rfl
    | ok o =>
      cases o with
      | none => exact ih s'
      | some i => rfl

/-- A call of `evict_frame` returns what `evict_frame_stopped` returns, and faults as it
does. -/
theorem evict_frame_stopped_returned (C : Collab) (cur fuel : Nat) (s : State) :
    evict_frame C cur fuel s = (evict_frame_stopped C cur fuel s).returned := by
  unfold evict_frame evict_frame_stopped
  split
  · rw [evict_frame_loop_stopped_returned]
    rcases evict_frame_loop_stopped cur fuel s with ⟨s1, r⟩
    cases r with
    | error f => rfl
    | ok i =>
      simp only [Stopped.returned]
      cases evict_frame_writeback C i s1 <;> rfl
  · rfl

/-! ## Claims on the clock hand and the locks -/

/-- C14: called with the eviction lock held on a hand `h < total_frames`,
`advance_clock_hand` returns with the hand at `(h + 1) mod total_frames`; and in every
state `r` reachable from `init_frame_table (N, base)`, `1 ≤ N`, the hand is below
`total_frames = N`. -/
theorem clock_hand_invariant (C : Collab) (N base cur : Nat) (s r : State)
    (hs : s.total_frames < UINT32) (hh : s.clock_hand < s.total_frames)
    (hg : s.frame_evict_lock = some cur) (hN : 1 ≤ N) (hsize : N < UINT32)
    (hr : Reachable C N base r) :
    (∃ s', advance_clock_hand cur s = .ok s' ∧
      s'.clock_hand = (s.clock_hand + 1) % s.total_frames ∧
      s'.total_frames = s.total_frames) ∧
    r.total_frames = N ∧ r.clock_hand < r.total_frames := by
  have := reachable_in_range C N base r hN hsize hr
  exact ⟨advance_hand cur s hs hh hg, this.1, by rw [this.1]; exact this.2⟩

/-- Witness of C14: `advance_clock_hand` on `two_frames`, and the state reached from
`init_frame_table (2, 4096)` by one call of `frame_handler_palloc`. -/
theorem clock_hand_invariant_witness :
    (∃ s', advance_clock_hand 7 two_frames = .ok s' ∧
      s'.clock_hand = (two_frames.clock_hand + 1) % two_frames.total_frames ∧
      s'.total_frames = two_frames.total_frames) ∧
    fresh_allocated.total_frames = 2 ∧
    fresh_allocated.clock_hand < fresh_allocated.total_frames :=
  clock_hand_invariant (plain_collab true) 2 4096 7 two_frames fresh_allocated (by decide)
    (by decide) rfl (by decide) (by decide)
    (Reachable.palloc 7 1 false 20 false fresh_table fresh_allocated true
      (Reachable.init (fun _ => disk_entry) (fun _ _ => false) [4096, 8192] true) rfl)

/-- C15: when `frame_handler_palloc` returns, on either path and whatever the loader
reported, the eviction lock is free, and the lock of the frame `i` that the call obtained
is held by the caller when `should_pin` is true and free when it is false. -/
theorem frame_handler_palloc_locks (C : Collab) (cur fuel : Nat) (zeros : Bool)
    (target : Nat) (should_pin : Bool) (s s' : State) (b : Bool)
    (h : frame_handler_palloc C cur fuel zeros target should_pin s = .ok (b, s')) :
    s'.frame_evict_lock = none ∧
    ∃ i a s1, frame_handler_palloc_obtain C cur fuel zeros s = .ok (i, a, s1) ∧
      (s'.frame_table[i]?).map frame.frame_lock =
        some (if should_pin then some cur else none) ∧
      ((s'.frame_table[i]?).map frame.frame_lock = some (some cur) ↔ should_pin = true) := by
  obtain ⟨i, a, s1, fr, hob, hfr, hl, hfin⟩ :=
    palloc_halves C cur fuel zeros target should_pin s s' b h
  obtain ⟨t, hfin', _, _, _, hg, _, _, hlocks, _⟩ :=
    finish_effect C cur zeros target should_pin i a s1 fr hfr hl
  rw [hfin'] at hfin
  simp only [Except.ok.injEq, Prod.mk.injEq] at hfin
  obtain ⟨_, rfl⟩ := hfin
  have hli := hlocks i
  simp only [if_true] at hli
  refine ⟨by rw [hg]; exact obtain_evict_lock C cur fuel zeros s s1 i a hob,
    i, a, s1, hob, hli, ?_⟩
  rw [hli]
  cases should_pin <;> simp

/-- Witness of C15: the eviction path on `full_frames`, a failed load, `should_pin` set. -/
theorem frame_handler_palloc_locks_witness :
    full_failed.frame_evict_lock = none ∧
    ∃ i a s1, frame_handler_palloc_obtain (plain_collab false) 7 1 true full_frames
        = .ok (i, a, s1) ∧
      (full_failed.frame_table[i]?).map frame.frame_lock =
        some (if true then some 7 else none) ∧
      ((full_failed.frame_table[i]?).map frame.frame_lock = some (some 7) ↔ true = true) :=
  frame_handler_palloc_locks (plain_collab false) 7 1 true 20 true full_frames full_failed
    false rfl

/-- C17: called by a thread that does not hold the eviction lock, `advance_clock_hand`
and `evict_frame` fail with an assertion, and the state in which each call stops is the
state it was called in: the clock hand, the accessed bits, the frame table with every
frame lock, the entries and the trace are those before the call, so that the page evictor
has not been called. `evict_frame` does so with any fuel. -/
theorem lock_misuse_asserts (C : Collab) (cur fuel : Nat) (s : State)
    (h : s.frame_evict_lock ≠ some cur) :
    advance_clock_hand cur s = .error .assertion ∧
      evict_frame C cur fuel s = .error .assertion ∧
      advance_clock_hand_stopped cur s = ⟨s, .error .assertion⟩ ∧
      evict_frame_stopped C cur fuel s = ⟨s, .error .assertion⟩ := by
  have : lock_held_by_current_thread s.frame_evict_lock cur = false := by
    simpa [lock_held_by_current_thread] using h
  simp [advance_clock_hand, evict_frame, advance_clock_hand_stopped, evict_frame_stopped,
    this]

/-- Witness of C17: thread 8 on `two_frames`, whose eviction lock is held by thread 7,
with fuel for three passes. -/
theorem lock_misuse_asserts_witness :
    advance_clock_hand 8 two_frames = .error .assertion ∧
      evict_frame (plain_collab true) 8 3 two_frames = .error .assertion ∧
      advance_clock_hand_stopped 8 two_frames = ⟨two_frames, .error .assertion⟩ ∧
      evict_frame_stopped (plain_collab true) 8 3 two_frames =
        ⟨two_frames, .error .assertion⟩ :=
  lock_misuse_asserts (plain_collab true) 8 3 two_frames (by decide)

/-! ## Claims settled by running the code: owner consistency and the address given to the loader -/

/-- C16, the code at the failing input: from `init_frame_table (1, 4096)`, a call of
`frame_handler_palloc` for entry 20 whose load succeeds binds frame 0 to entry 20; a
second call, for entry 21, whose load fails takes frame 0 by eviction, so entry 20 is
marked not loaded, and returns `false` with frame 0 still owned by entry 20: a descriptor
whose owner has `is_loaded = false`. -/
theorem owner_not_resident_after_failed_load :
    ∃ s1 s2, frame_handler_palloc picky_collab 7 1 false 20 false single_frame
        = .ok (true, s1) ∧
      owner_of s1 0 = some 20 ∧ (s1.sptes 20).is_loaded = true ∧
      frame_handler_palloc picky_collab 7 1 false 21 false s1 = .ok (false, s2) ∧
      Event.evict_page 20 4096 ∈ s2.trace ∧
      owner_of s2 0 = some 20 ∧ (s2.sptes 20).is_loaded = false :=
  ⟨_, _, rfl, rfl, rfl, rfl, by decide, rfl, rfl⟩

/-- C18, the code at the failing input: on `full_frames` the pool is empty and the frame
comes from `evict_frame` (frame 0 at 4096).  With `zeros` set, the page that is zeroed is
4096, the address in the descriptor, but the loader is called with the local
`physical_memory_addr`, which is `NULL`, and never with 4096; on success frame 0 is bound
to the target entry 20. -/
theorem loader_gets_null_after_eviction :
    ∃ s', frame_handler_palloc (plain_collab true) 7 1 true 20 false full_frames
        = .ok (true, s') ∧
      owner_of s' 0 = some 20 ∧
      (s'.frame_table[0]?).map frame.physical_memory_addr = some 4096 ∧
      Event.evict_page 10 4096 ∈ s'.trace ∧ Event.zero_page 4096 ∈ s'.trace ∧
      Event.load_page 20 0 ∈ s'.trace ∧ Event.load_page 20 4096 ∉ s'.trace :=
  ⟨_, rfl, rfl, rfl, by decide, by decide, by decide, by decide⟩

/-! ## The lock discipline -/

theorem replay_append (h0 : Held) (t1 t2 : List Event) :
    Held.replay h0 (t1 ++ t2) = (Held.replay h0 t2).bind fun h => Held.replay h t1 := by
  induction t1 with
  | nil => simp [Held.replay]
  | cons e t ih =>
    show ((Held.replay h0 (t ++ t2)).bind fun h => h.step e) =
      (Held.replay h0 t2).bind fun h => (Held.replay h t).bind fun h => h.step e
    rw [ih]
    cases Held.replay h0 t2 <;> rfl

theorem scanning_passed (s0 s : State) (h : scanning s0 s) : scanning s0 (passed s) := by
  obtain ⟨t, ht, hr⟩ := h
  refine ⟨[.advance, .try_acquire_frame s.clock_hand false] ++ t, ?_, ?_⟩
  · simp [passed, ht]
  · rw [replay_append, hr]; rfl

theorem scanning_skipped (s0 s : State) (fr : frame) (e : Nat) (h : scanning s0 s) :
    scanning s0 (skipped s fr e) := by
  obtain ⟨t, ht, hr⟩ := h
  refine ⟨[.advance, .acquire_evict_lock, .release_frame s.clock_hand,
    .set_accessed (s.sptes e).owner_thread.pagedir fr.physical_memory_addr false,
    .is_accessed (s.sptes e).owner_thread.pagedir fr.physical_memory_addr,
    .release_evict_lock, .try_acquire_frame s.clock_hand true] ++ t, ?_, ?_⟩
  · simp [skipped, ht]
  · rw [replay_append, hr]
    simp [Held.replay, Held.step]

theorem evict_frame_discipline (C : Collab) (cur fuel : Nat) (s s' : State) (i : Nat)
    (h : evict_frame C cur fuel s = .ok (i, s')) :
    ∃ t, s'.trace = t ++ s.trace ∧ Held.replay ⟨true, []⟩ t = some ⟨false, [i]⟩ := by
  obtain ⟨_, p, fr, e, ⟨t, ht, hr⟩, _, _, _, _, _, _, hi, hs'⟩ :=
    evict_frame_invariant C cur (scanning s)
      (fun s1 _ _ hP _ _ _ _ => scanning_passed s s1 hP)
      (fun s1 fr e hP _ _ _ _ => scanning_skipped s s1 fr e hP)
      fuel s s' i ⟨[], rfl, rfl⟩ h
  refine ⟨[.evict_page e fr.physical_memory_addr,
    .is_accessed (p.sptes e).owner_thread.pagedir fr.physical_memory_addr,
    .release_evict_lock, .try_acquire_frame p.clock_hand true] ++ t, ?_, ?_⟩
  · rw [hs']; simp [evicted, chosen, ht]
  · rw [replay_append, hr, hi]
    simp [Held.replay, Held.step]

theorem passes_discipline (cur k : Nat) (s s' : State)
    (h : evict_frame_passes cur k s = some s') : scanning s s' :=
  passes_invariant cur (scanning s)
    (fun s1 _ _ hP _ _ _ _ => scanning_passed s s1 hP)
    (fun s1 fr e hP _ _ _ _ => scanning_skipped s s1 fr e hP)
    k s s' ⟨[], rfl, rfl⟩ h

theorem finish_events_discipline (zeros : Bool) (target : Nat) (should_pin : Bool)
    (i a frame_addr : Nat) (success : Bool) :
    Held.replay ⟨false, [i]⟩ (finish_events zeros target should_pin i a frame_addr success) =
      some ⟨false, if should_pin then [i] else []⟩ := by
  cases zeros <;> cases should_pin <;> cases success <;>
    simp [finish_events, Held.replay, Held.step]

theorem obtain_discipline (C : Collab) (cur fuel : Nat) (zeros : Bool) (s s1 : State)
    (i a : Nat) (h : frame_handler_palloc_obtain C cur fuel zeros s = .ok (i, a, s1)) :
    ∃ t, s1.trace = t ++ s.trace ∧ Held.replay ⟨false, []⟩ t = some ⟨false, [i]⟩ := by
  obtain ⟨_, _, hcase⟩ := obtain_cases C cur fuel zeros s s1 i a h
  have htr := (asked_fields cur zeros s).2.2.2.2.2.2.2
  rcases hcase with ⟨_, _, _, rfl⟩ | ⟨_, hev⟩
  · refine ⟨[.release_evict_lock, .acquire_frame i, .palloc_get zeros (asked cur zeros s).1,
      .acquire_evict_lock], ?_, ?_⟩
    · simp [claimed_from, htr]
    · simp [Held.replay, Held.step]
  · obtain ⟨t, ht, hr⟩ := evict_frame_discipline C cur fuel _ s1 i hev
    refine ⟨t ++ [.palloc_get zeros (asked cur zeros s).1, .acquire_evict_lock], ?_, ?_⟩
    · rw [ht, htr]; simp
    · rw [replay_append]
      simp only [Held.replay, Held.step, Option.some_bind, if_true]
      exact hr

/-- C19: in a run of `frame_handler_palloc` by a thread that holds no lock when it starts,
the events of the run, checked in order against the lock discipline (no call of the
accessed-bit query, the evictor or the loader with the eviction lock held; no frame lock
taken while a frame lock is held; the eviction lock never taken while a frame lock is
held), all pass: when the run returns, with the eviction lock free and at most the lock of
the frame obtained held; and after any number `k` of passes of the loop of `evict_frame`
that went round again, with the eviction lock held and no frame lock held. -/
theorem frame_handler_palloc_discipline (C : Collab) (cur fuel : Nat) (zeros : Bool)
    (target : Nat) (should_pin : Bool) (s s' sk : State) (b : Bool) (k : Nat) :
    (frame_handler_palloc C cur fuel zeros target should_pin s = .ok (b, s') →
      ∃ t i, s'.trace = t ++ s.trace ∧
        Held.replay ⟨false, []⟩ t = some ⟨false, if should_pin then [i] else []⟩) ∧
    (evict_frame_passes cur k (asked cur zeros s).2 = some sk →
      ∃ t, sk.trace = t ++ s.trace ∧ Held.replay ⟨false, []⟩ t = some ⟨true, []⟩) := by
  constructor
  · intro h
    obtain ⟨i, a, s1, fr, hob, hfr, hl, hfin⟩ :=
      palloc_halves C cur fuel zeros target should_pin s s' b h
    obtain ⟨s'', hfin', _, _, _, _, _, htr, _, _⟩ :=
      finish_effect C cur zeros target should_pin i a s1 fr hfr hl
    rw [hfin'] at hfin
    simp only [Except.ok.injEq, Prod.mk.injEq] at hfin
    obtain ⟨_, rfl⟩ := hfin
    obtain ⟨t, ht, hr⟩ := obtain_discipline C cur fuel zeros s s1 i a hob
    refine ⟨_ ++ t, i, by rw [htr, ht, List.append_assoc], ?_⟩
    rw [replay_append, hr]
    exact finish_events_discipline _ _ _ _ _ _ _
  · intro h
    obtain ⟨t, ht, hr⟩ := passes_discipline cur k _ sk h
    have htr := (asked_fields cur zeros s).2.2.2.2.2.2.2
    refine ⟨t ++ [.palloc_get zeros (asked cur zeros s).1, .acquire_evict_lock], ?_, ?_⟩
    · rw [ht, htr]; simp
    · rw [replay_append]
      simp only [Held.replay, Held.step, Option.some_bind, if_true]
      exact hr

/-- Witness of C19: the eviction path on `two_accessed`, which skips both frames once. -/
theorem frame_handler_palloc_discipline_witness :
    (∃ t i, two_accessed_allocated.trace = t ++ two_accessed.trace ∧
        Held.replay ⟨false, []⟩ t = some ⟨false, if false then [i] else []⟩) ∧
    (∃ t, two_accessed_passes.trace = t ++ two_accessed.trace ∧
        Held.replay ⟨false, []⟩ t = some ⟨true, []⟩) :=
  ⟨(frame_handler_palloc_discipline (plain_collab true) 7 5 true 20 false two_accessed
      two_accessed_allocated two_accessed_passes true 2).1 rfl,
   (frame_handler_palloc_discipline (plain_collab true) 7 5 true 20 false two_accessed
      two_accessed_allocated two_accessed_passes true 2).2 rfl⟩

/-! ## The frame effect of the scan -/

theorem scan_effect_start (s0 : State) : ScanEffect s0 s0 [] where
  trace := rfl
  table := rfl
  entries := rfl
  changed := fun _ _ h => absurd rfl h
  cleared := fun _ _ _ _ _ h => by simp at h
  inspected := fun _ h => by simp at h

theorem scan_effect_passed (s0 s : State) (t : List Event) (h : ScanEffect s0 s t) :
    ScanEffect s0 (passed s) ([.advance, .try_acquire_frame s.clock_hand false] ++ t) where
  trace := by simp [passed, h.trace]
  table := h.table
  entries := h.entries
  changed := by
    intro pd a hne
    obtain ⟨h1, j, fr, e, h2, h3, h4, h5, h6⟩ := h.changed pd a hne
    exact ⟨h1, j, fr, e, h2, h3, h4, h5, by simp [h6]⟩
  cleared := by
    intro j fr e hfr he hmem
    simp only [List.cons_append, List.nil_append, List.mem_cons, reduceCtorEq, false_or]
      at hmem
    exact h.cleared j fr e hfr he hmem
  inspected := by
    intro j hmem
    simp only [List.cons_append, List.nil_append, List.mem_cons, reduceCtorEq, false_or]
      at hmem
    simp [h.inspected j hmem]

theorem scan_effect_skipped (s0 s : State) (t : List Event) (fr : frame) (e : Nat)
    (h : ScanEffect s0 s t) (hfr : s.frame_table[s.clock_hand]? = some fr)
    (he : fr.resident_page = some e) :
    ScanEffect s0 (skipped s fr e)
      ([.advance, .acquire_evict_lock, .release_frame s.clock_hand,
        .set_accessed (s.sptes e).owner_thread.pagedir fr.physical_memory_addr false,
        .is_accessed (s.sptes e).owner_thread.pagedir fr.physical_memory_addr,
        .release_evict_lock, .try_acquire_frame s.clock_hand true] ++ t) where
  trace := by simp [skipped, h.trace]
  table := h.table
  entries := h.entries
  changed := by
    intro pd a hne
    simp only [skipped] at hne ⊢
    by_cases hk : pd = (s.sptes e).owner_thread.pagedir ∧ a = fr.physical_memory_addr
    · refine ⟨by simp [hk], s.clock_hand, fr, e, by rw [← h.table]; exact hfr, he,
        by rw [← h.entries]; exact hk.1, hk.2, by simp⟩
    · simp only [hk, if_false] at hne ⊢
      obtain ⟨h1, j, fr', e', h2, h3, h4, h5, h6⟩ := h.changed pd a hne
      exact ⟨h1, j, fr', e', h2, h3, h4, h5, by simp [h6]⟩
  cleared := by
    intro j fr' e' hfr' he' hmem
    simp only [skipped]
    by_cases hk : (s0.sptes e').owner_thread.pagedir = (s.sptes e).owner_thread.pagedir ∧
        fr'.physical_memory_addr = fr.physical_memory_addr
    · simp [hk]
    · simp only [hk, if_false]
      simp only [List.cons_append, List.nil_append, List.mem_cons, reduceCtorEq, false_or,
        Event.release_frame.injEq] at hmem
      rcases hmem with hj | hmem
      · exfalso
        apply hk
        subst hj
        rw [h.table, hfr'] at hfr
        simp only [Option.some.injEq] at hfr
        subst hfr
        rw [he'] at he
        simp only [Option.some.injEq] at he
        subst he
        rw [h.entries]
        exact ⟨rfl, rfl⟩
      · exact h.cleared j fr' e' hfr' he' hmem
  inspected := by
    intro j hmem
    simp only [List.cons_append, List.nil_append, List.mem_cons, reduceCtorEq, false_or,
      Event.release_frame.injEq] at hmem
    rcases hmem with hj | hmem
    · simp [hj]
    · simp [h.inspected j hmem]

/-- C20 (amended): when `evict_frame` returns frame `i`, the table is the one it started
with except that the lock of frame `i` is held by the caller (no owner, no address and no
other lock has changed, so the caller holds the lock of frame `i` and the frame locks it
held at the start); the entries are those it started with, handed to the evictor; an
accessed bit that has changed is false and belongs to a frame that was inspected and
skipped; the bit of every skipped frame is false; and, in a table with pairwise distinct
physical addresses, a frame that was never inspected keeps its accessed bits. -/
theorem evict_frame_frame_effect (C : Collab) (cur fuel : Nat) (s s' : State) (i : Nat)
    (h : evict_frame C cur fuel s = .ok (i, s')) :
    ∃ t fr e, s'.trace = t ++ s.trace ∧ s.frame_table[i]? = some fr ∧
      fr.frame_lock = none ∧ fr.resident_page = some e ∧
      s'.frame_table =
        s.frame_table.modify (fun fr => { fr with frame_lock := some cur }) i ∧
      s'.sptes = C.evict_page_from_physical_memory s.sptes e fr.physical_memory_addr ∧
      (∀ pd a, s'.accessed pd a ≠ s.accessed pd a → s'.accessed pd a = false ∧
        ∃ (j : Nat) (fr' : frame) (e' : Nat), s.frame_table[j]? = some fr' ∧
          fr'.resident_page = some e' ∧ pd = (s.sptes e').owner_thread.pagedir ∧
          a = fr'.physical_memory_addr ∧ Event.try_acquire_frame j true ∈ t ∧
          Event.release_frame j ∈ t) ∧
      (∀ (j : Nat) (fr' : frame) (e' : Nat), s.frame_table[j]? = some fr' →
        fr'.resident_page = some e' → Event.release_frame j ∈ t →
        s'.accessed (s.sptes e').owner_thread.pagedir fr'.physical_memory_addr = false) ∧
      (distinct_addrs s → ∀ (j : Nat) (fr' : frame), s.frame_table[j]? = some fr' →
        Event.try_acquire_frame j true ∉ t →
        ∀ pd, s'.accessed pd fr'.physical_memory_addr =
          s.accessed pd fr'.physical_memory_addr) ∧
      (∀ (j : Nat) (fr' : frame), s'.frame_table[j]? = some fr' →
        (fr'.frame_lock = some cur ↔
          (j = i ∨ ∃ fr0, s.frame_table[j]? = some fr0 ∧ fr0.frame_lock = some cur))) := by
  obtain ⟨_, p, fr, e, ⟨t, hse⟩, hfr, hl, he, _, _, _, hi, hs'⟩ :=
    evict_frame_invariant C cur (fun p => ∃ t, ScanEffect s p t)
      (fun s1 _ _ ⟨t, hP⟩ _ _ _ _ => ⟨_, scan_effect_passed s s1 t hP⟩)
      (fun s1 fr e ⟨t, hP⟩ _ hfr _ he => ⟨_, scan_effect_skipped s s1 t fr e hP hfr he⟩)
      fuel s s' i ⟨[], scan_effect_start s⟩ h
  have hfr0 : s.frame_table[i]? = some fr := by rw [hi, ← hse.table]; exact hfr
  have hacc : s'.accessed = p.accessed := by rw [hs']; rfl
  have hmem : ∀ ev, ev ∈ t → ev ∈
      [Event.evict_page e fr.physical_memory_addr,
        Event.is_accessed (p.sptes e).owner_thread.pagedir fr.physical_memory_addr,
        Event.release_evict_lock, Event.try_acquire_frame p.clock_hand true] ++ t :=
    fun ev hev => List.mem_append_right _ hev
  have hrel : ∀ j, Event.release_frame j ∈
      [Event.evict_page e fr.physical_memory_addr,
        Event.is_accessed (p.sptes e).owner_thread.pagedir fr.physical_memory_addr,
        Event.release_evict_lock, Event.try_acquire_frame p.clock_hand true] ++ t →
      Event.release_frame j ∈ t := by
    intro j hj
    simpa using hj
  have htab : s'.frame_table =
      s.frame_table.modify (fun fr => { fr with frame_lock := some cur }) i := by
    rw [hs', hi, ← hse.table]; rfl
  have hchanged : ∀ pd a, s'.accessed pd a ≠ s.accessed pd a → s'.accessed pd a = false ∧
      ∃ (j : Nat) (fr' : frame) (e' : Nat), s.frame_table[j]? = some fr' ∧
        fr'.resident_page = some e' ∧ pd = (s.sptes e').owner_thread.pagedir ∧
        a = fr'.physical_memory_addr ∧ Event.try_acquire_frame j true ∈ t ∧
        Event.release_frame j ∈ t := by
    intro pd a hne
    rw [hacc] at hne ⊢
    obtain ⟨h1, j, fr', e', h2, h3, h4, h5, h6⟩ := hse.changed pd a hne
    exact ⟨h1, j, fr', e', h2, h3, h4, h5, hse.inspected j h6, h6⟩
  refine ⟨[Event.evict_page e fr.physical_memory_addr,
    Event.is_accessed (p.sptes e).owner_thread.pagedir fr.physical_memory_addr,
    Event.release_evict_lock, Event.try_acquire_frame p.clock_hand true] ++ t, fr, e, ?_,
    hfr0, hl, he, htab, ?_, ?_, ?_, ?_, ?_⟩
  · rw [hs']
    simp only [evicted, chosen, hse.trace, List.cons_append, List.nil_append]
  · rw [hs', ← hse.entries]; rfl
  · intro pd a hne
    obtain ⟨h1, j, fr', e', h2, h3, h4, h5, h6, h7⟩ := hchanged pd a hne
    exact ⟨h1, j, fr', e', h2, h3, h4, h5, hmem _ h6, hmem _ h7⟩
  · intro j fr' e' hfr' he' hj
    rw [hacc]
    exact hse.cleared j fr' e' hfr' he' (hrel j hj)
  · intro hd j fr' hfr' hni pd
    by_contra hne
    obtain ⟨_, j', fr'', e', h2, _, _, h5, h6, _⟩ := hchanged pd _ hne
    have := hd j j' fr' fr'' hfr' h2 h5
    subst this
    exact hni (hmem _ h6)
  · intro j fr' hfr'
    rw [htab, List.getElem?_modify] at hfr'
    by_cases hij : i = j
    · subst hij
      simp only [hfr0, if_true, Option.map_eq_map, Option.map_some', Option.some.injEq]
        at hfr'
      subst hfr'
      simp
    · cases hsj : s.frame_table[j]? with
      | none => simp [hsj] at hfr'
      | some fr0 =>
        simp only [hsj, hij, if_false, Option.map_eq_map, Option.map_some', id_eq,
          Option.some.injEq] at hfr'
        subst hfr'
        constructor
        · intro hlock
          exact Or.inr ⟨fr0, rfl, hlock⟩
        · rintro (hji | ⟨fr1, hfr1, hlock⟩)
          · exact absurd hji.symm hij
          · simp only [Option.some.injEq] at hfr1
            subst hfr1
            exact hlock

/-- Counterexample to C20 as stated: on `held_elsewhere`, `evict_frame` returns frame 0 and
the caller, thread 7, holds two frame locks on return: the victim's and that of frame 1. -/
theorem evict_frame_two_locks_counterexample :
    ∃ s', evict_frame (plain_collab true) 7 1 held_elsewhere = .ok (0, s') ∧
      (s'.frame_table[0]?).map frame.frame_lock = some (some 7) ∧
      (s'.frame_table[1]?).map frame.frame_lock = some (some 7) :=
  ⟨_, rfl, rfl, rfl⟩

/-- Witness of C20 (amended): the scan on `two_frames`, which skips both frames and frame
0 again before it returns frame 1. -/
theorem evict_frame_frame_effect_witness :
    ∃ t fr e, two_frames_evicted.trace = t ++ two_frames.trace ∧
      two_frames.frame_table[1]? = some fr ∧
      fr.frame_lock = none ∧ fr.resident_page = some e ∧
      two_frames_evicted.frame_table =
        two_frames.frame_table.modify (fun fr => { fr with frame_lock := some 7 }) 1 ∧
      two_frames_evicted.sptes =
        (plain_collab true).evict_page_from_physical_memory two_frames.sptes e
          fr.physical_memory_addr ∧
      (∀ pd a, two_frames_evicted.accessed pd a ≠ two_frames.accessed pd a →
        two_frames_evicted.accessed pd a = false ∧
        ∃ (j : Nat) (fr' : frame) (e' : Nat), two_frames.frame_table[j]? = some fr' ∧
          fr'.resident_page = some e' ∧ pd = (two_frames.sptes e').owner_thread.pagedir ∧
          a = fr'.physical_memory_addr ∧ Event.try_acquire_frame j true ∈ t ∧
          Event.release_frame j ∈ t) ∧
      (∀ (j : Nat) (fr' : frame) (e' : Nat), two_frames.frame_table[j]? = some fr' →
        fr'.resident_page = some e' → Event.release_frame j ∈ t →
        two_frames_evicted.accessed (two_frames.sptes e').owner_thread.pagedir
          fr'.physical_memory_addr = false) ∧
      (distinct_addrs two_frames → ∀ (j : Nat) (fr' : frame),
        two_frames.frame_table[j]? = some fr' →
        Event.try_acquire_frame j true ∉ t →
        ∀ pd, two_frames_evicted.accessed pd fr'.physical_memory_addr =
          two_frames.accessed pd fr'.physical_memory_addr) ∧
      (∀ (j : Nat) (fr' : frame), two_frames_evicted.frame_table[j]? = some fr' →
        (fr'.frame_lock = some 7 ↔
          (j = 1 ∨ ∃ fr0, two_frames.frame_table[j]? = some fr0 ∧
            fr0.frame_lock = some 7))) :=
  evict_frame_frame_effect (plain_collab true) 7 5 two_frames two_frames_evicted 1 rfl

end Vm
